import Mathlib

/-!
# Launcher (`src/launcher/main.go`)

A shallow embedding of the buildpack application launcher.  `main` is a
straight-line decision procedure over the process arguments, the process
environment and a handful of library calls (`filepath`, `encoding/json`,
`encoding/base64`, `strconv`, `yaml`, `ioutil`, `credhub`).  The library calls
are not part of this repository; they are fields of `Sys`.  The process
environment is passed explicitly, every effectful call is appended to a log,
and `os.Exit`, a run-time panic and `runProcess` are the three terminal
outcomes.
-/

set_option autoImplicit false

namespace Launcher

/-! ## Association lists: the process environment and Go maps -/

/-- Value bound to `key` (first binding), if any. -/
def assocGet {β : Type} (key : String) : List (String × β) → Option β
  | [] => none
  | (k, v) :: rest => if k = key then some v else assocGet key rest

/-- Bind `key` to `value`: an existing binding is overwritten where it stands,
otherwise the binding is added.  This is the update of a Go map
(`m[key] = value`) and of the process environment (`os.Setenv`). -/
def assocSet {β : Type} (key : String) (value : β) : List (String × β) → List (String × β)
  | [] => [(key, value)]
  | (k, v) :: rest =>
    if k = key then (key, value) :: rest else (k, v) :: assocSet key value rest

/-- Keys of an association list, in order. -/
def assocKeys {β : Type} (m : List (String × β)) : List String :=
  m.map Prod.fst

/-- The process environment: variable name to value. -/
abbrev Env := List (String × String)

/-- Model of `os.LookupEnv`. -/
def lookupEnv (env : Env) (key : String) : Option String :=
  assocGet key env

/-- Model of `os.Getenv`: the value of the variable, the empty string when it is unset. -/
def getenv (env : Env) (key : String) : String :=
  (assocGet key env).getD ""

/-- Model of `os.Setenv`. -/
def setenv (env : Env) (key value : String) : Env :=
  assocSet key value env

/-! ## Data model -/

/-- Values held in the `map[string]interface{}` of the application descriptor,
as `encoding/json` sees them.  `main` itself stores strings (`host`,
`instance_id`) and integers (`port`, `instance_index`).  `number n` is a number
whose value is the integer `n`: a Go `int` stored by `main`, or a `float64`
holding `n` produced by `json.Unmarshal`.  Every other value that
`json.Unmarshal` may produce (null, booleans, non-integral numbers, arrays,
nested objects) is kept by its JSON text. -/
inductive JsonValue where
  | string (s : String)
  | number (n : Int)
  | other (json : String)
  deriving DecidableEq, Repr

/-- Go type `map[string]interface{}`. -/
abbrev JsonObject := List (String × JsonValue)

/-- Go struct `PlatformOptions` (main.go:19-21). -/
structure PlatformOptions where
  CredhubURI : String
  deriving DecidableEq, Repr

/-- Go struct `stagingInfo` (main.go:135-137). -/
structure stagingInfo where
  StartCommand : String
  deriving DecidableEq, Repr

/-- An error returned by `ioutil.ReadFile`; `notExist` is what `os.IsNotExist` reports. -/
structure FileError where
  notExist : Bool
  msg : String
  deriving DecidableEq, Repr

/-- Handle returned by `credhub.New`. -/
structure CredHub where
  uri : String
  cert : String
  key : String
  deriving DecidableEq, Repr

/-- One invocation of the launcher: `os.Args`, the inherited environment, and
the behaviour of the library calls `main` makes.  `os.Args` is the program name
followed by the positional arguments. -/
structure Sys where
  progName : String
  positional : List String
  env : Env
  /-- Library call `filepath.Abs`. -/
  filepathAbs : String → Except String String
  /-- Library call `filepath.Join`. -/
  filepathJoin : List String → String
  /-- Library call `json.Unmarshal` into the `map[string]interface{}` of line 49.
  `none` is the nil map: the JSON value `null` decodes without error and sets
  the target map to nil. -/
  jsonUnmarshalObject : String → Except String (Option JsonObject)
  /-- Library call `json.Marshal` of a `map[string]interface{}`. -/
  jsonMarshal : JsonObject → Except String String
  /-- Library call `strconv.Atoi`. -/
  atoi : String → Except String Int
  /-- Library call `ioutil.ReadFile`. -/
  readFile : String → Except FileError String
  /-- Library call `yaml.Unmarshal` into a `stagingInfo`. -/
  yamlUnmarshal : String → Except String stagingInfo
  /-- Library call `base64.StdEncoding.DecodeString`. -/
  base64Decode : String → Except String String
  /-- Library call `json.Unmarshal` into a `PlatformOptions`. -/
  jsonUnmarshalPlatformOptions : String → Except String PlatformOptions
  /-- Library call `credhub.New` with a client certificate. -/
  credhubNew : String → String → String → Except String CredHub
  /-- Library call `(*CredHub).InterpolateString`. -/
  interpolateString : CredHub → String → Except String String

/-- The slice `os.Args`. -/
def Sys.osArgs (sys : Sys) : List String :=
  sys.progName :: sys.positional

/-- The places where `main` gives up. -/
inductive Fatal where
  | insufficientArguments
  | invalidStagingInfo
  | noStartCommand
  | invalidPlatformOptions
  | missingClientCredentials
  | credhubInitFailed
  | credhubInterpolationFailed
  deriving DecidableEq, Repr

/-- Effectful calls made by the launcher, in program order. -/
inductive Event where
  | stderr (msg : String)
  | setenv (key value : String)
  | startCommandFromStagingInfo (path : String)
  | readFile (path : String)
  | platformOptions
  | credhubNew (uri cert key : String)
  | interpolateString (services : String)
  | gomaxprocs (n : Nat)
  deriving DecidableEq, Repr

/-- How `main` ends: `os.Exit code` at one of the fatal sites, a run-time
panic (the Go runtime prints the message and exits with status 2), or the call
`runProcess(dir, command)` that replaces the process image. -/
inductive Outcome where
  | exit (site : Fatal) (code : Nat)
  | panic (msg : String)
  | runProcess (dir command : String)
  deriving DecidableEq, Repr

/-- Mutable process state threaded through `main`. -/
structure State where
  env : Env
  log : List Event
  deriving DecidableEq, Repr

/-- Effect of `os.Setenv(key, value)`. -/
def State.setenv (st : State) (key value : String) : State :=
  { env := Launcher.setenv st.env key value, log := st.log ++ [Event.setenv key value] }

/-- Record an effectful call. -/
def State.emit (st : State) (e : Event) : State :=
  { env := st.env, log := st.log ++ [e] }

/-! ## The program -/

/-- Lines 33-47 of main.go: resolve the application directory and set `HOME`,
`TMPDIR` and `DEPS_DIR`.  Returns the resolved directory. -/
def setPathVariables (sys : Sys) (dir : String) (st : State) : String × State :=
  let dir1 := match sys.filepathAbs dir with
    | Except.ok absDir => absDir
    | Except.error _ => dir
  let st1 := st.setenv "HOME" dir1
  let st2 := match sys.filepathAbs (sys.filepathJoin [dir1, "..", "tmp"]) with
    | Except.ok tmpDir => st1.setenv "TMPDIR" tmpDir
    | Except.error _ => st1
  let st3 := match sys.filepathAbs (sys.filepathJoin [dir1, "..", "deps"]) with
    | Except.ok depsDir => st2.setenv "DEPS_DIR" depsDir
    | Except.error _ => st2
  (dir1, st3)

/-- Lines 52-64 of main.go: the assignments made to the decoded descriptor. -/
def augmentDescriptor (sys : Sys) (env : Env) (vcapAppEnv : JsonObject) : JsonObject :=
  let m1 := assocSet "host" (JsonValue.string "0.0.0.0") vcapAppEnv
  let m2 := assocSet "instance_id" (JsonValue.string (getenv env "INSTANCE_GUID")) m1
  let m3 := match sys.atoi (getenv env "PORT") with
    | Except.ok port => assocSet "port" (JsonValue.number port) m2
    | Except.error _ => m2
  let m4 := match sys.atoi (getenv env "INSTANCE_INDEX") with
    | Except.ok index => assocSet "instance_index" (JsonValue.number index) m3
    | Except.error _ => m3
  m4

/-- Lines 49-70 of main.go: decode `VCAP_APPLICATION`, augment it, encode it
back.  `none` is the panic of line 52: when the decoder leaves a nil map, the
assignment `vcapAppEnv["host"] = ...` is an assignment to an entry in a nil map. -/
def augmentVcapApplication (sys : Sys) (st : State) : Option State :=
  match sys.jsonUnmarshalObject (getenv st.env "VCAP_APPLICATION") with
  | Except.error _ => some st
  | Except.ok none => none
  | Except.ok (some vcapAppEnv) =>
    match sys.jsonMarshal (augmentDescriptor sys st.env vcapAppEnv) with
    | Except.ok mungedAppEnv => some (st.setenv "VCAP_APPLICATION" mungedAppEnv)
    | Except.error _ => some st

/-- Lines 33-70 of main.go: environment construction; `none` is the panic of
line 52. -/
def buildEnvironment (sys : Sys) (dir : String) (st : State) : Option (String × State) :=
  let r := setPathVariables sys dir st
  match augmentVcapApplication sys r.2 with
  | none => none
  | some st1 => some (r.1, st1)

/-- Function `startCommandFromStagingInfo` (main.go:139-156). -/
def startCommandFromStagingInfo (sys : Sys) (stagingInfoPath : String) (st : State) :
    Except String String × State :=
  let st1 := (st.emit (Event.startCommandFromStagingInfo stagingInfoPath)).emit
    (Event.readFile stagingInfoPath)
  match sys.readFile stagingInfoPath with
  | Except.error err =>
    if err.notExist then (Except.ok "", st1) else (Except.error err.msg, st1)
  | Except.ok stagingInfoData =>
    match sys.yamlUnmarshal stagingInfoData with
    | Except.error _ => (Except.error "invalid YAML", st1)
    | Except.ok info => (Except.ok info.StartCommand, st1)

/-- Lines 72-81 of main.go: the command is the start-command argument when it
is not empty, otherwise what the staging file says. -/
def resolveCommand (sys : Sys) (startCommand : String) (st : State) :
    Except String String × State :=
  if startCommand ≠ "" then (Except.ok startCommand, st)
  else startCommandFromStagingInfo sys "staging_info.yml" st

/-- Function `platformOptions` (main.go:115-133); `none` is the nil pointer. -/
def platformOptions (sys : Sys) : Except String (Option PlatformOptions) :=
  if sys.osArgs.length > 4 then
    let base64PlatformOptions := sys.osArgs.getD 4 ""
    if base64PlatformOptions = "" then Except.ok none
    else
      match sys.base64Decode base64PlatformOptions with
      | Except.error err => Except.error err
      | Except.ok jsonPlatformOptions =>
        match sys.jsonUnmarshalPlatformOptions jsonPlatformOptions with
        | Except.error err => Except.error err
        | Except.ok platformOptions => Except.ok (some platformOptions)
  else Except.ok none

/-- Lines 93-109 of main.go: credhub interpolation of `VCAP_SERVICES`;
`none` means the launch goes on. -/
def interpolateServices (sys : Sys) (opts : Option PlatformOptions) (st : State) :
    Option Outcome × State :=
  match opts with
  | none => (none, st)
  | some po =>
    if po.CredhubURI ≠ "" then
      if getenv st.env "CF_INSTANCE_CERT" = "" ∨ getenv st.env "CF_INSTANCE_KEY" = "" then
        (some (Outcome.exit Fatal.missingClientCredentials 6),
          st.emit (Event.stderr "Missing CF_INSTANCE_CERT and/or CF_INSTANCE_KEY"))
      else
        let st1 := st.emit (Event.credhubNew po.CredhubURI (getenv st.env "CF_INSTANCE_CERT")
          (getenv st.env "CF_INSTANCE_KEY"))
        match sys.credhubNew po.CredhubURI (getenv st.env "CF_INSTANCE_CERT")
            (getenv st.env "CF_INSTANCE_KEY") with
        | Except.error err =>
          (some (Outcome.exit Fatal.credhubInitFailed 4),
            st1.emit (Event.stderr ("Unable to set up credhub client: " ++ err)))
        | Except.ok ch =>
          let st2 := st1.emit (Event.interpolateString (getenv st.env "VCAP_SERVICES"))
          match sys.interpolateString ch (getenv st.env "VCAP_SERVICES") with
          | Except.error err =>
            (some (Outcome.exit Fatal.credhubInterpolationFailed 5),
              st2.emit (Event.stderr ("Unable to interpolate credhub references: " ++ err)))
          | Except.ok interpolatedServices =>
            (none, st2.setenv "VCAP_SERVICES" interpolatedServices)
    else (none, st)

/-- Lines 83-113 of main.go: everything after the command has been resolved. -/
def launch (sys : Sys) (dir command : String) (st : State) : Outcome × State :=
  if command = "" then
    (Outcome.exit Fatal.noStartCommand 1,
      st.emit (Event.stderr (sys.progName ++ ": no start command specified or detected in droplet")))
  else
    let st1 := st.emit Event.platformOptions
    match platformOptions sys with
    | Except.error err =>
      (Outcome.exit Fatal.invalidPlatformOptions 3,
        st1.emit (Event.stderr ("Invalid platform options: " ++ err)))
    | Except.ok opts =>
      match interpolateServices sys opts st1 with
      | (some out, st2) => (out, st2)
      | (none, st2) =>
        (Outcome.runProcess dir command, st2.emit (Event.gomaxprocs 1))

/-- Lines 72-113 of main.go: resolve the command, then launch. -/
def resolveAndLaunch (sys : Sys) (dir startCommand : String) (st : State) : Outcome × State :=
  match resolveCommand sys startCommand st with
  | (Except.error err, st1) =>
    (Outcome.exit Fatal.invalidStagingInfo 1,
      st1.emit (Event.stderr ("Invalid staging info - " ++ err)))
  | (Except.ok command, st1) => launch sys dir command st1

/-- Function `main` (main.go:23-113). -/
def main (sys : Sys) : Outcome × State :=
  let st0 : State := { env := sys.env, log := [] }
  if sys.osArgs.length < 4 then
    (Outcome.exit Fatal.insufficientArguments 1,
      (st0.emit (Event.stderr (sys.progName ++ ": received only " ++
          toString (sys.osArgs.length - 1) ++ " arguments\n"))).emit
        (Event.stderr ("Usage: " ++ sys.progName ++
          " <app-directory> <start-command> <metadata> [<platform-options>]")))
  else
    let dir := sys.osArgs.getD 1 ""
    let startCommand := sys.osArgs.getD 2 ""
    let paths := setPathVariables sys dir st0
    match augmentVcapApplication sys paths.2 with
    | none => (Outcome.panic "assignment to entry in nil map", paths.2)
    | some st1 => resolveAndLaunch sys paths.1 startCommand st1

/-! ## Specification-side vocabulary -/

/-- Exit status used at each fatal site of `main`
(main.go:27, 79, 85, 91, 96, 101, 106). -/
def exitStatus : Fatal → Nat
  | Fatal.insufficientArguments => 1
  | Fatal.invalidStagingInfo => 1
  | Fatal.noStartCommand => 1
  | Fatal.invalidPlatformOptions => 3
  | Fatal.missingClientCredentials => 6
  | Fatal.credhubInitFailed => 4
  | Fatal.credhubInterpolationFailed => 5

/-- The fatal sites that precede platform-option handling. -/
def Fatal.beforePlatformOptions : Fatal → Bool
  | Fatal.insufficientArguments => true
  | Fatal.invalidStagingInfo => true
  | Fatal.noStartCommand => true
  | _ => false

/-- The four descriptor fields that `main` assigns. -/
def runtimeKeys : List String :=
  ["host", "instance_id", "port", "instance_index"]

/-- Two objects have the same fields: every key is bound to the same value in
both, or in neither.  A Go map has no order, so this is equality of maps. -/
def sameFields (a b : JsonObject) : Prop :=
  ∀ k, assocGet k a = assocGet k b

/-- Decision procedure for `sameFields`: compare the bindings of the keys that
occur in either object. -/
def sameFieldsCheck (a b : JsonObject) : Bool :=
  (assocKeys a ++ assocKeys b).all (fun k => decide (assocGet k a = assocGet k b))

/-- The launcher called `runProcess`. -/
def Outcome.launched : Outcome → Bool
  | Outcome.runProcess _ _ => true
  | Outcome.exit _ _ => false
  | Outcome.panic _ => false

/-- Exit status of the process, when it ends: the argument of `os.Exit`, or 2
after a run-time panic. -/
def Outcome.status : Outcome → Option Nat
  | Outcome.exit _ code => some code
  | Outcome.panic _ => some 2
  | Outcome.runProcess _ _ => none

/-- The launch conditions in the words of the specification: enough arguments;
a non-empty command from the argument or, when the argument is empty, from a
staging file that reads and decodes; a platform-options payload that is absent,
empty or decodes (base64 then JSON); and, when a credhub URI is configured,
both client credentials, a client, and a successful interpolation of
`VCAP_SERVICES`. -/
def LaunchConditions (sys : Sys) : Prop :=
  4 ≤ sys.osArgs.length ∧
  (sys.osArgs.getD 2 "" ≠ "" ∨
    ∃ data info, sys.readFile "staging_info.yml" = Except.ok data ∧
      sys.yamlUnmarshal data = Except.ok info ∧ info.StartCommand ≠ "") ∧
  (sys.osArgs.length ≤ 4 ∨ sys.osArgs.getD 4 "" = "" ∨
    ∃ json po, sys.base64Decode (sys.osArgs.getD 4 "") = Except.ok json ∧
      sys.jsonUnmarshalPlatformOptions json = Except.ok po ∧
      (po.CredhubURI ≠ "" →
        getenv sys.env "CF_INSTANCE_CERT" ≠ "" ∧ getenv sys.env "CF_INSTANCE_KEY" ≠ "" ∧
        ∃ ch out, sys.credhubNew po.CredhubURI (getenv sys.env "CF_INSTANCE_CERT")
            (getenv sys.env "CF_INSTANCE_KEY") = Except.ok ch ∧
          sys.interpolateString ch (getenv sys.env "VCAP_SERVICES") = Except.ok out))

/-- The command resolved for an invocation (lines 72-81 of main.go), or the
staging-info error. -/
def resolvedCommand (sys : Sys) : Except String String :=
  (resolveCommand sys (sys.osArgs.getD 2 "") { env := sys.env, log := [] }).1

/-- Variables written by environment construction. -/
def constructedVariables : List String :=
  ["HOME", "TMPDIR", "DEPS_DIR", "VCAP_APPLICATION"]

/-- The state after lines 33-47 of `main`: the path variables are set,
`VCAP_APPLICATION` has not been looked at yet. -/
def pathState (sys : Sys) : State :=
  (setPathVariables sys (sys.osArgs.getD 1 "") { env := sys.env, log := [] }).2

/-- The event is a call of the credhub client. -/
def Event.callsCredhub : Event → Bool
  | Event.credhubNew _ _ _ => true
  | Event.interpolateString _ => true
  | _ => false

/-! ## Numbers through `encoding/json`

`json.Marshal` writes a Go `int` with all its digits; `json.Unmarshal` into an
`interface{}` stores every JSON number in a `float64`, which has a 53-bit
mantissa.  The definitions below describe that conversion for integers. -/

/-- How often `a` must be halved to fall below `2^53`: the number of low bits
of `a` that a 53-bit mantissa cannot hold.  The first argument bounds the
number of halvings; `excessBits a a` is exact. -/
def excessBits : Nat → Nat → Nat
  | 0, _ => 0
  | fuel + 1, a => if a < 2 ^ 53 then 0 else excessBits fuel (a / 2) + 1

/-- The integer that the `float64` nearest to `n` holds (ties go to the even
mantissa). -/
def float64Round (n : Int) : Int :=
  let a := n.natAbs
  let e := excessBits a a
  let q := a / 2 ^ e
  let r := a % 2 ^ e
  let up := decide (2 ^ e < 2 * r) || (decide (2 * r = 2 ^ e) && decide (q % 2 = 1))
  let q2 := if up then q + 1 else q
  if n < 0 then -((q2 * 2 ^ e : Nat) : Int) else ((q2 * 2 ^ e : Nat) : Int)

/-- A value after `json.Marshal` and `json.Unmarshal`: numbers go through `float64`. -/
def JsonValue.asDecoded : JsonValue → JsonValue
  | JsonValue.number n => JsonValue.number (float64Round n)
  | v => v

/-- An object after `json.Marshal` and `json.Unmarshal`. -/
def decodedView (obj : JsonObject) : JsonObject :=
  obj.map (fun kv => (kv.1, kv.2.asDecoded))

/-! ## Sample invocations -/

/-- Text of the descriptor `{"foo":"bar"}`. -/
def sampleDescriptorText : String :=
  "\x7b\"foo\":\"bar\"\x7d"

/-- The decoded descriptor `{"foo":"bar"}`. -/
def sampleDescriptor : JsonObject :=
  [("foo", JsonValue.string "bar")]

/-- The descriptor after augmentation with `PORT=8080`, `INSTANCE_INDEX=2`,
`INSTANCE_GUID=abc`. -/
def sampleAugmented : JsonObject :=
  [("foo", JsonValue.string "bar"), ("host", JsonValue.string "0.0.0.0"),
    ("instance_id", JsonValue.string "abc"), ("port", JsonValue.number 8080),
    ("instance_index", JsonValue.number 2)]

/-- Text of the augmented descriptor, keys sorted as `json.Marshal` does. -/
def sampleAugmentedText : String :=
  "\x7b\"foo\":\"bar\",\"host\":\"0.0.0.0\",\"instance_id\":\"abc\",\"instance_index\":2,\"port\":8080\x7d"

/-- The descriptor after augmentation with `PORT=9007199254740993` (`2^53 + 1`). -/
def sampleBigAugmented : JsonObject :=
  [("foo", JsonValue.string "bar"), ("host", JsonValue.string "0.0.0.0"),
    ("instance_id", JsonValue.string "abc"), ("port", JsonValue.number 9007199254740993),
    ("instance_index", JsonValue.number 2)]

/-- Text of `sampleBigAugmented`: `json.Marshal` writes the port with all its digits. -/
def sampleBigAugmentedText : String :=
  "\x7b\"foo\":\"bar\",\"host\":\"0.0.0.0\",\"instance_id\":\"abc\",\"instance_index\":2,\"port\":9007199254740993\x7d"

/-- Text of a platform-options payload naming a credhub URI. -/
def samplePlatformOptionsText : String :=
  "\x7b\"credhub_uri\":\"https://credhub.example\"\x7d"

/-- Base64 form of `samplePlatformOptionsText`. -/
def samplePlatformOptionsBase64 : String :=
  "eyJjcmVkaHViX3VyaSI6Imh0dHBzOi8vY3JlZGh1Yi5leGFtcGxlIn0="

/-- What `json.Unmarshal` answers on the sample texts: `null` leaves a nil map,
and the numbers of an encoded object come back as `float64`. -/
def sampleUnmarshal (s : String) : Except String (Option JsonObject) :=
  if s = "null" then Except.ok none
  else if s = sampleDescriptorText then Except.ok (some sampleDescriptor)
  else if s = sampleAugmentedText then Except.ok (some (decodedView sampleAugmented))
  else if s = sampleBigAugmentedText then Except.ok (some (decodedView sampleBigAugmented))
  else Except.error "invalid character"

/-- What `json.Marshal` answers on the sample objects. -/
def sampleMarshal (m : JsonObject) : Except String String :=
  if sameFieldsCheck m sampleAugmented then Except.ok sampleAugmentedText
  else if sameFieldsCheck m sampleBigAugmented then Except.ok sampleBigAugmentedText
  else Except.error "unsupported value"

/-- The environment of the specification's example, with the given
`VCAP_APPLICATION` and `PORT`. -/
def sampleEnv (vcapApplication port : String) : Env :=
  [("VCAP_APPLICATION", vcapApplication), ("PORT", port),
    ("INSTANCE_INDEX", "2"), ("INSTANCE_GUID", "abc"), ("VCAP_SERVICES", "services")]

/-- A launch of `/app` with an explicit start command, no platform options,
no staging file, and the environment of the specification's example. -/
def sampleSys : Sys where
  progName := "launcher"
  positional := ["/app", "bundle exec rails server", "metadata"]
  env := sampleEnv sampleDescriptorText "8080"
  filepathAbs := fun p => Except.ok p
  filepathJoin := fun parts => if parts = ["/app", "..", "tmp"] then "/tmp"
    else if parts = ["/app", "..", "deps"] then "/deps" else String.intercalate "/" parts
  jsonUnmarshalObject := sampleUnmarshal
  jsonMarshal := sampleMarshal
  atoi := fun s => if s = "8080" then Except.ok 8080 else if s = "2" then Except.ok 2
    else if s = "9007199254740993" then Except.ok 9007199254740993
    else Except.error "invalid syntax"
  readFile := fun _ => Except.error { notExist := true, msg := "no such file or directory" }
  yamlUnmarshal := fun s =>
    if s = "start_command: \"bundle exec rails server\"" then
      Except.ok { StartCommand := "bundle exec rails server" }
    else Except.error "cannot unmarshal"
  base64Decode := fun s =>
    if s = samplePlatformOptionsBase64 then Except.ok samplePlatformOptionsText
    else Except.error "illegal base64 data"
  jsonUnmarshalPlatformOptions := fun s =>
    if s = samplePlatformOptionsText then Except.ok { CredhubURI := "https://credhub.example" }
    else Except.error "invalid character"
  credhubNew := fun uri cert key => Except.ok { uri := uri, cert := cert, key := key }
  interpolateString := fun _ services => Except.ok ("interpolated " ++ services)

/-- Too few arguments: only the application directory. -/
def sampleShortSys : Sys :=
  { sampleSys with positional := ["/app"] }

/-- Empty start-command argument and no staging file. -/
def sampleNoCommandSys : Sys :=
  { sampleSys with positional := ["/app", "", "metadata"] }

/-- Empty start-command argument and a staging file naming the command. -/
def sampleStagedSys : Sys :=
  { sampleSys with
    positional := ["/app", "", "metadata"]
    readFile := fun _ => Except.ok "start_command: \"bundle exec rails server\"" }

/-- Empty start-command argument and a staging file that is not YAML. -/
def sampleBadStagingSys : Sys :=
  { sampleSys with
    positional := ["/app", "", "metadata"]
    readFile := fun _ => Except.ok ": :" }

/-- Platform options naming a credhub URI, no client credentials in the environment. -/
def sampleCredhubSys : Sys :=
  { sampleSys with
    positional := ["/app", "bundle exec rails server", "metadata", samplePlatformOptionsBase64] }

/-- The plain launch with `VCAP_APPLICATION=null`. -/
def sampleNullSys : Sys :=
  { sampleSys with env := sampleEnv "null" "8080" }

/-- Empty start-command argument, no staging file, `VCAP_APPLICATION=null`. -/
def sampleNullNoCommandSys : Sys :=
  { sampleSys with
    positional := ["/app", "", "metadata"]
    env := sampleEnv "null" "8080" }

/-- The plain launch with `PORT=9007199254740993`. -/
def sampleBigPortSys : Sys :=
  { sampleSys with env := sampleEnv sampleDescriptorText "9007199254740993" }

/-! ## Basic facts about association lists and the environment -/

theorem assocGet_assocSet_self {β : Type} (key : String) (value : β) (m : List (String × β)) :
    assocGet key (assocSet key value m) = some value := by
  induction m with
  | nil => simp [assocSet, assocGet]
  | cons hd tl ih =>
    obtain ⟨k, v⟩ := hd
    by_cases h : k = key
    · simp [assocSet, assocGet, h]
    · simp [assocSet, assocGet, h, ih]

theorem assocGet_assocSet_ne {β : Type} (key other : String) (value : β) (m : List (String × β))
    (hne : other ≠ key) : assocGet other (assocSet key value m) = assocGet other m := by
  induction m with
  | nil => simp [assocSet, assocGet, Ne.symm hne]
  | cons hd tl ih =>
    obtain ⟨k, v⟩ := hd
    by_cases h : k = key
    · subst h
      simp [assocSet, assocGet, Ne.symm hne]
    · by_cases h2 : k = other
      · subst h2
        simp [assocSet, assocGet, h]
      · simp [assocSet, assocGet, h, h2, ih]

theorem assocSet_eq_self {β : Type} (key : String) (value : β) (m : List (String × β))
    (hget : assocGet key m = some value) : assocSet key value m = m := by
  induction m with
  | nil => simp [assocGet] at hget
  | cons hd tl ih =>
    obtain ⟨k, v⟩ := hd
    by_cases h : k = key
    · simp [assocGet, h] at hget
      simp [assocSet, h, hget]
    · simp [assocGet, h] at hget
      simp [assocSet, h, ih hget]

theorem assocSet_assocSet {β : Type} (key : String) (value : β) (m : List (String × β)) :
    assocSet key value (assocSet key value m) = assocSet key value m :=
  assocSet_eq_self key value _ (assocGet_assocSet_self key value m)

theorem mem_assocKeys_assocSet {β : Type} (key other : String) (value : β)
    (m : List (String × β)) :
    other ∈ assocKeys (assocSet key value m) ↔ other = key ∨ other ∈ assocKeys m := by
  induction m with
  | nil => simp [assocSet, assocKeys]
  | cons hd tl ih =>
    obtain ⟨k, v⟩ := hd
    by_cases h : k = key
    · subst h
      simp [assocSet, assocKeys]
    · simp only [assocKeys] at ih
      simp only [assocSet, h, if_false, assocKeys, List.map_cons, List.mem_cons, ih]
      tauto

theorem assocKeys_assocSet_nodup {β : Type} (key : String) (value : β) (m : List (String × β))
    (hm : (assocKeys m).Nodup) : (assocKeys (assocSet key value m)).Nodup := by
  induction m with
  | nil => simp [assocSet, assocKeys]
  | cons hd tl ih =>
    obtain ⟨k, v⟩ := hd
    have hm2 : k ∉ assocKeys tl ∧ (assocKeys tl).Nodup := by
      simpa [assocKeys] using hm
    by_cases h : k = key
    · subst h
      simpa [assocSet, assocKeys] using hm
    · have hk : k ∉ assocKeys (assocSet key value tl) := by
        rw [mem_assocKeys_assocSet]
        intro hc
        rcases hc with hc | hc
        · exact h hc
        · exact hm2.1 hc
      have ih2 := ih hm2.2
      simp only [assocKeys] at hk ih2
      simp only [assocSet, h, if_false, assocKeys, List.map_cons, List.nodup_cons]
      exact ⟨hk, ih2⟩

theorem lookupEnv_setenv_self (env : Env) (key value : String) :
    lookupEnv (setenv env key value) key = some value :=
  assocGet_assocSet_self key value env

theorem lookupEnv_setenv_ne (env : Env) (key other value : String) (hne : other ≠ key) :
    lookupEnv (setenv env key value) other = lookupEnv env other :=
  assocGet_assocSet_ne key other value env hne

theorem getenv_setenv_self (env : Env) (key value : String) :
    getenv (setenv env key value) key = value := by
  simp [getenv, setenv, assocGet_assocSet_self]

theorem getenv_setenv_ne (env : Env) (key other value : String) (hne : other ≠ key) :
    getenv (setenv env key value) other = getenv env other := by
  simp [getenv, setenv, assocGet_assocSet_ne key other value env hne]

theorem setenv_eq_self (env : Env) (key value : String)
    (hget : lookupEnv env key = some value) : setenv env key value = env :=
  assocSet_eq_self key value env hget

/-! ## Environment construction: what it touches -/

theorem State.setenv_env (st : State) (key value : String) :
    (st.setenv key value).env = Launcher.setenv st.env key value := rfl

theorem State.setenv_log (st : State) (key value : String) :
    (st.setenv key value).log = st.log ++ [Event.setenv key value] := rfl

theorem State.emit_env (st : State) (e : Event) : (st.emit e).env = st.env := rfl

theorem State.emit_log (st : State) (e : Event) : (st.emit e).log = st.log ++ [e] := rfl

/-- Variables other than `HOME`, `TMPDIR`, `DEPS_DIR` keep their binding. -/
theorem setPathVariables_lookup (sys : Sys) (dir : String) (st : State) (key : String)
    (h1 : key ≠ "HOME") (h2 : key ≠ "TMPDIR") (h3 : key ≠ "DEPS_DIR") :
    lookupEnv (setPathVariables sys dir st).2.env key = lookupEnv st.env key := by
  unfold setPathVariables
  simp only
  split <;> split <;>
    simp [State.setenv_env, lookupEnv_setenv_ne, h1, h2, h3]

/-- `getenv` is determined by `lookupEnv`. -/
theorem getenv_eq_of_lookup (env env2 : Env) (key : String)
    (h : lookupEnv env key = lookupEnv env2 key) : getenv env key = getenv env2 key := by
  unfold lookupEnv at h
  simp [getenv, h]

/-- Events added by `setPathVariables` are writes of the path variables. -/
theorem setPathVariables_log (sys : Sys) (dir : String) (st : State) (e : Event)
    (he : e ∈ (setPathVariables sys dir st).2.log) :
    e ∈ st.log ∨ ∃ k v, e = Event.setenv k v ∧ k ∈ constructedVariables := by
  unfold setPathVariables at he
  simp only at he
  split at he <;> split at he <;>
    simp only [State.setenv_log, List.mem_append, List.mem_singleton] at he
  all_goals
    casesm* _ ∨ _
    all_goals first
      | exact Or.inl (by assumption)
      | (subst_vars; right; simp [constructedVariables])

/-! ## The descriptor assignments -/

theorem assocGet_assocSet {β : Type} (key other : String) (value : β) (m : List (String × β)) :
    assocGet other (assocSet key value m) = if other = key then some value else assocGet other m := by
  by_cases h : other = key
  · subst h
    simp [assocGet_assocSet_self]
  · simp [h, assocGet_assocSet_ne key other value m h]

/-- The assignments read the environment through three variables only. -/
theorem augmentDescriptor_congr (sys : Sys) (env env2 : Env) (m : JsonObject)
    (h1 : getenv env "INSTANCE_GUID" = getenv env2 "INSTANCE_GUID")
    (h2 : getenv env "PORT" = getenv env2 "PORT")
    (h3 : getenv env "INSTANCE_INDEX" = getenv env2 "INSTANCE_INDEX") :
    augmentDescriptor sys env m = augmentDescriptor sys env2 m := by
  simp only [augmentDescriptor, h1, h2, h3]

theorem augmentDescriptor_host (sys : Sys) (env : Env) (m : JsonObject) :
    assocGet "host" (augmentDescriptor sys env m) = some (JsonValue.string "0.0.0.0") := by
  unfold augmentDescriptor
  simp only
  split <;> split <;> simp [assocGet_assocSet]

theorem augmentDescriptor_instance_id (sys : Sys) (env : Env) (m : JsonObject) :
    assocGet "instance_id" (augmentDescriptor sys env m) =
      some (JsonValue.string (getenv env "INSTANCE_GUID")) := by
  unfold augmentDescriptor
  simp only
  split <;> split <;> simp [assocGet_assocSet]

theorem augmentDescriptor_port (sys : Sys) (env : Env) (m : JsonObject) (p : Int)
    (hp : sys.atoi (getenv env "PORT") = Except.ok p) :
    assocGet "port" (augmentDescriptor sys env m) = some (JsonValue.number p) := by
  unfold augmentDescriptor
  simp only [hp]
  split <;> simp [assocGet_assocSet]

theorem augmentDescriptor_instance_index (sys : Sys) (env : Env) (m : JsonObject) (i : Int)
    (hi : sys.atoi (getenv env "INSTANCE_INDEX") = Except.ok i) :
    assocGet "instance_index" (augmentDescriptor sys env m) = some (JsonValue.number i) := by
  unfold augmentDescriptor
  simp only [hi]
  split <;> simp [assocGet_assocSet]

/-- A field that is not one of the four runtime keys keeps its value. -/
theorem augmentDescriptor_frame (sys : Sys) (env : Env) (m : JsonObject) (k : String)
    (hk : k ∉ runtimeKeys) :
    assocGet k (augmentDescriptor sys env m) = assocGet k m := by
  simp only [runtimeKeys, List.mem_cons, List.mem_singleton, List.not_mem_nil, or_false,
    not_or] at hk
  unfold augmentDescriptor
  simp only
  split <;> split <;> simp [assocGet_assocSet, hk.1, hk.2.1, hk.2.2.1, hk.2.2.2]

/-- No key is removed, and only runtime keys are added. -/
theorem augmentDescriptor_keys (sys : Sys) (env : Env) (m : JsonObject) (k : String) :
    (k ∈ assocKeys m → k ∈ assocKeys (augmentDescriptor sys env m)) ∧
    (k ∈ assocKeys (augmentDescriptor sys env m) → k ∈ assocKeys m ∨ k ∈ runtimeKeys) := by
  unfold augmentDescriptor
  simp only
  split <;> split <;> simp only [mem_assocKeys_assocSet, runtimeKeys, List.mem_cons,
    List.mem_singleton, List.not_mem_nil, or_false] <;> tauto

/-- When `PORT` and `INSTANCE_INDEX` parse, the keys are those of the input
together with the four runtime keys. -/
theorem augmentDescriptor_keys_full (sys : Sys) (env : Env) (m : JsonObject) (k : String)
    (p i : Int) (hp : sys.atoi (getenv env "PORT") = Except.ok p)
    (hi : sys.atoi (getenv env "INSTANCE_INDEX") = Except.ok i) :
    k ∈ assocKeys (augmentDescriptor sys env m) ↔ k ∈ assocKeys m ∨ k ∈ runtimeKeys := by
  unfold augmentDescriptor
  simp only [hp, hi, mem_assocKeys_assocSet, runtimeKeys, List.mem_cons,
    List.mem_singleton, List.not_mem_nil, or_false]
  tauto

/-- Keys stay unique. -/
theorem augmentDescriptor_nodup (sys : Sys) (env : Env) (m : JsonObject)
    (hm : (assocKeys m).Nodup) : (assocKeys (augmentDescriptor sys env m)).Nodup := by
  unfold augmentDescriptor
  simp only
  split <;> split <;> repeat (first | exact hm | apply assocKeys_assocSet_nodup)

/-- Assigning the four fields again changes nothing: each assignment overwrites
the field in place with the value it already has. -/
theorem augmentDescriptor_idem (sys : Sys) (env : Env) (m : JsonObject) :
    augmentDescriptor sys env (augmentDescriptor sys env m) = augmentDescriptor sys env m := by
  unfold augmentDescriptor
  simp only
  split <;> split <;>
    repeat (rw [assocSet_eq_self _ _ _ (by simp [assocGet_assocSet])])

theorem assocGet_eq_none_iff {β : Type} (key : String) (m : List (String × β)) :
    assocGet key m = none ↔ key ∉ assocKeys m := by
  induction m with
  | nil => simp [assocGet, assocKeys]
  | cons hd tl ih =>
    obtain ⟨k, v⟩ := hd
    simp only [assocKeys] at ih
    by_cases h : k = key
    · simp [assocGet, assocKeys, h]
    · simp [assocGet, assocKeys, h, ih, Ne.symm h]

/-- Objects with the same fields have the same keys. -/
theorem sameFields_mem_keys (a b : JsonObject) (h : sameFields a b) (k : String) :
    k ∈ assocKeys a ↔ k ∈ assocKeys b := by
  have ha := assocGet_eq_none_iff k a
  have hb := assocGet_eq_none_iff k b
  rw [h k] at ha
  constructor
  · intro hk
    by_contra hn
    exact (ha.1 (hb.2 hn)) hk
  · intro hk
    by_contra hn
    exact (hb.1 (ha.2 hn)) hk

theorem sameFieldsCheck_iff (a b : JsonObject) : sameFieldsCheck a b = true ↔ sameFields a b := by
  unfold sameFieldsCheck sameFields
  simp only [List.all_eq_true, List.mem_append, decide_eq_true_eq]
  constructor
  · intro h k
    by_cases hk : k ∈ assocKeys a ∨ k ∈ assocKeys b
    · exact h k hk
    · simp only [not_or] at hk
      rw [(assocGet_eq_none_iff k a).2 hk.1, (assocGet_eq_none_iff k b).2 hk.2]
  · intro h k _
    exact h k

/-- The assignments respect equality of maps. -/
theorem augmentDescriptor_sameFields (sys : Sys) (env : Env) (a b : JsonObject)
    (h : sameFields a b) :
    sameFields (augmentDescriptor sys env a) (augmentDescriptor sys env b) := by
  intro k
  unfold augmentDescriptor
  simp only
  split <;> split <;> simp only [assocGet_assocSet, h k]

/-- The sample encoder depends on the fields of its argument only. -/
theorem sampleMarshal_congr (a b : JsonObject) (h : sameFields a b) :
    sampleMarshal a = sampleMarshal b := by
  have hcheck : ∀ c, sameFieldsCheck a c = sameFieldsCheck b c := by
    intro c
    rw [Bool.eq_iff_iff, sameFieldsCheck_iff, sameFieldsCheck_iff]
    constructor
    · intro ha k
      rw [← h k, ha k]
    · intro hb k
      rw [h k, hb k]
  unfold sampleMarshal
  rw [hcheck, hcheck]

/-! ## Numbers through `encoding/json` -/

theorem excessBits_of_small (fuel a : Nat) (h : a < 2 ^ 53) : excessBits fuel a = 0 := by
  cases fuel with
  | zero => rfl
  | succ n =>
    unfold excessBits
    rw [if_pos h]

/-- Integers of magnitude below `2^53` are held exactly. -/
theorem float64Round_of_small (n : Int) (h : n.natAbs < 2 ^ 53) : float64Round n = n := by
  unfold float64Round
  simp only [excessBits_of_small _ _ h, pow_zero, Nat.div_one, Nat.mod_one]
  simp
  split
  · rw [abs_of_neg (by assumption)]
    omega
  · rw [abs_of_nonneg (by omega)]

theorem assocGet_decodedView (k : String) (obj : JsonObject) :
    assocGet k (decodedView obj) = (assocGet k obj).map JsonValue.asDecoded := by
  induction obj with
  | nil => rfl
  | cons hd tl ih =>
    obtain ⟨k2, v⟩ := hd
    unfold decodedView at ih ⊢
    by_cases h : k2 = k
    · simp [assocGet, h]
    · simp [assocGet, h, ih]

theorem assocKeys_decodedView (obj : JsonObject) :
    assocKeys (decodedView obj) = assocKeys obj := by
  simp [assocKeys, decodedView, Function.comp_def]

/-- Decoding the encoded augmented object and assigning the four fields again
gives the fields of the augmented object: the assigned fields are overwritten,
the others were decoded values already. -/
theorem augmentDescriptor_redecoded (sys : Sys) (env : Env) (m m2 : JsonObject)
    (h2 : sameFields m2 (decodedView (augmentDescriptor sys env m)))
    (h3 : sameFields (decodedView m) m) :
    sameFields (augmentDescriptor sys env m2) (augmentDescriptor sys env m) := by
  intro k
  have hk := h2 k
  rw [assocGet_decodedView] at hk
  have hm := h3 k
  rw [assocGet_decodedView] at hm
  unfold augmentDescriptor at hk ⊢
  simp only at hk ⊢
  rcases hp : sys.atoi (getenv env "PORT") with e1 | p <;>
    rcases hi : sys.atoi (getenv env "INSTANCE_INDEX") with e2 | i <;>
    simp only [hp, hi, assocGet_assocSet] at hk ⊢ <;>
    by_cases h1 : k = "instance_index" <;> by_cases h2 : k = "port" <;>
    by_cases h3 : k = "instance_id" <;> by_cases h4 : k = "host" <;>
    simp_all

/-! ## Environment construction: the descriptor variable -/

/-- The construction panics exactly when the decoder leaves a nil map. -/
theorem augmentVcapApplication_none_iff (sys : Sys) (st : State) :
    augmentVcapApplication sys st = none ↔
      sys.jsonUnmarshalObject (getenv st.env "VCAP_APPLICATION") = Except.ok none := by
  unfold augmentVcapApplication
  split
  · rename_i h
    simp [h]
  · rename_i h
    simp [h]
  · rename_i m h
    simp only [h]
    split <;> simp

/-- The environment left by `augmentVcapApplication` when it does not panic. -/
theorem augmentVcapApplication_env (sys : Sys) (st st1 : State)
    (h : augmentVcapApplication sys st = some st1) :
    st1.env =
      match sys.jsonUnmarshalObject (getenv st.env "VCAP_APPLICATION") with
      | Except.ok (some vcapAppEnv) =>
        match sys.jsonMarshal (augmentDescriptor sys st.env vcapAppEnv) with
        | Except.ok mungedAppEnv => setenv st.env "VCAP_APPLICATION" mungedAppEnv
        | Except.error _ => st.env
      | _ => st.env := by
  unfold augmentVcapApplication at h
  rcases hdec : sys.jsonUnmarshalObject (getenv st.env "VCAP_APPLICATION") with err | (_ | m)
  · simp only [hdec, Option.some.injEq] at h
    subst h
    rfl
  · simp [hdec] at h
  · simp only [hdec] at h
    rcases henc : sys.jsonMarshal (augmentDescriptor sys st.env m) with err | text
    · simp only [henc, Option.some.injEq] at h
      subst h
      simp only [henc]
    · simp only [henc, Option.some.injEq] at h
      subst h
      simp only [henc, State.setenv_env]

/-- Variables other than `VCAP_APPLICATION` keep their binding. -/
theorem augmentVcapApplication_lookup (sys : Sys) (st st1 : State) (key : String)
    (h : augmentVcapApplication sys st = some st1) (hk : key ≠ "VCAP_APPLICATION") :
    lookupEnv st1.env key = lookupEnv st.env key := by
  rw [augmentVcapApplication_env sys st st1 h]
  split
  · split
    · exact lookupEnv_setenv_ne _ _ _ _ hk
    · rfl
  · rfl

/-- Events added by `augmentVcapApplication` are writes of `VCAP_APPLICATION`. -/
theorem augmentVcapApplication_log (sys : Sys) (st st1 : State) (e : Event)
    (h : augmentVcapApplication sys st = some st1) (he : e ∈ st1.log) :
    e ∈ st.log ∨ ∃ k v, e = Event.setenv k v ∧ k ∈ constructedVariables := by
  unfold augmentVcapApplication at h
  split at h
  · simp only [Option.some.injEq] at h
    subst h
    exact Or.inl he
  · simp at h
  · split at h
    · simp only [Option.some.injEq] at h
      subst h
      simp only [State.setenv_log, List.mem_append, List.mem_singleton] at he
      rcases he with he | he
      · exact Or.inl he
      · exact Or.inr ⟨_, _, he, by simp [constructedVariables]⟩
    · simp only [Option.some.injEq] at h
      subst h
      exact Or.inl he

/-- Shape of a completed environment construction. -/
theorem buildEnvironment_some (sys : Sys) (dir : String) (st : State) (r : String × State)
    (h : buildEnvironment sys dir st = some r) :
    r.1 = (setPathVariables sys dir st).1 ∧
    augmentVcapApplication sys (setPathVariables sys dir st).2 = some r.2 := by
  unfold buildEnvironment at h
  simp only at h
  split at h
  · simp at h
  · rename_i st1 hst
    simp only [Option.some.injEq] at h
    subst h
    exact ⟨rfl, hst⟩

theorem buildEnvironment_of_some (sys : Sys) (dir : String) (st st1 : State)
    (h : augmentVcapApplication sys (setPathVariables sys dir st).2 = some st1) :
    buildEnvironment sys dir st = some ((setPathVariables sys dir st).1, st1) := by
  unfold buildEnvironment
  simp only [h]

/-- Environment construction leaves every other variable alone. -/
theorem buildEnvironment_lookup (sys : Sys) (dir : String) (st : State) (r : String × State)
    (key : String) (h : buildEnvironment sys dir st = some r) (hk : key ∉ constructedVariables) :
    lookupEnv r.2.env key = lookupEnv st.env key := by
  simp only [constructedVariables, List.mem_cons, List.mem_singleton, List.not_mem_nil,
    or_false, not_or] at hk
  rw [augmentVcapApplication_lookup sys _ _ key (buildEnvironment_some sys dir st r h).2 hk.2.2.2,
    setPathVariables_lookup sys dir st key hk.1 hk.2.1 hk.2.2.1]

/-- Environment construction only writes environment variables. -/
theorem buildEnvironment_log (sys : Sys) (dir : String) (st : State) (r : String × State)
    (e : Event) (h : buildEnvironment sys dir st = some r) (he : e ∈ r.2.log) :
    e ∈ st.log ∨ ∃ k v, e = Event.setenv k v ∧ k ∈ constructedVariables := by
  rcases augmentVcapApplication_log sys _ _ e (buildEnvironment_some sys dir st r h).2 he with h1 | h1
  · exact setPathVariables_log sys dir st e h1
  · exact Or.inr h1

theorem pathState_lookup (sys : Sys) (key : String) (hk : key ∉ constructedVariables) :
    lookupEnv (pathState sys).env key = lookupEnv sys.env key := by
  simp only [constructedVariables, List.mem_cons, List.mem_singleton, List.not_mem_nil,
    or_false, not_or] at hk
  exact setPathVariables_lookup sys _ _ key hk.1 hk.2.1 hk.2.2.1

theorem pathState_log (sys : Sys) (e : Event) (he : e ∈ (pathState sys).log) :
    ∃ k v, e = Event.setenv k v ∧ k ∈ constructedVariables := by
  rcases setPathVariables_log sys _ _ e he with h | h
  · simp at h
  · exact h

/-- The decoder sees the initial `VCAP_APPLICATION`: the path variables are
other variables. -/
theorem pathState_vcap (sys : Sys) :
    getenv (pathState sys).env "VCAP_APPLICATION" = getenv sys.env "VCAP_APPLICATION" :=
  getenv_eq_of_lookup _ _ _ (setPathVariables_lookup sys _ _ "VCAP_APPLICATION"
    (by decide) (by decide) (by decide))

/-- Setting the path variables a second time changes nothing. -/
theorem setPathVariables_env_noop (sys : Sys) (dir : String) (st st2 : State)
    (hHome : lookupEnv st2.env "HOME" = lookupEnv (setPathVariables sys dir st).2.env "HOME")
    (hTmp : lookupEnv st2.env "TMPDIR" = lookupEnv (setPathVariables sys dir st).2.env "TMPDIR")
    (hDeps : lookupEnv st2.env "DEPS_DIR" =
      lookupEnv (setPathVariables sys dir st).2.env "DEPS_DIR") :
    (setPathVariables sys dir st2).2.env = st2.env := by
  unfold setPathVariables at hHome hTmp hDeps ⊢
  simp only at hHome hTmp hDeps ⊢
  generalize (match sys.filepathAbs dir with
    | Except.ok absDir => absDir
    | Except.error _ => dir) = d1 at hHome hTmp hDeps ⊢
  cases ht : sys.filepathAbs (sys.filepathJoin [d1, "..", "tmp"]) <;>
    cases hd : sys.filepathAbs (sys.filepathJoin [d1, "..", "deps"]) <;>
    simp only [ht, hd, State.setenv_env, lookupEnv, setenv, assocGet_assocSet, reduceIte,
      String.reduceEq] at hHome hTmp hDeps ⊢
  all_goals simp [assocSet_eq_self, hHome, hTmp, hDeps]

theorem setPathVariables_fst (sys : Sys) (dir : String) (st st2 : State) :
    (setPathVariables sys dir st).1 = (setPathVariables sys dir st2).1 := rfl

/-- The environment left by `augmentVcapApplication` depends on the environment
it starts from only. -/
theorem augmentVcapApplication_env_congr (sys : Sys) (st st2 st1 : State)
    (henv : st2.env = st.env) (h : augmentVcapApplication sys st = some st1) :
    ∃ st3, augmentVcapApplication sys st2 = some st3 ∧ st3.env = st1.env := by
  have h1 := augmentVcapApplication_env sys st st1 h
  have hnone : augmentVcapApplication sys st2 ≠ none := by
    intro hn
    rw [augmentVcapApplication_none_iff, henv, ← augmentVcapApplication_none_iff] at hn
    rw [hn] at h
    cases h
  rcases hst3 : augmentVcapApplication sys st2 with _ | st3
  · exact absurd hst3 hnone
  · refine ⟨st3, rfl, ?_⟩
    rw [augmentVcapApplication_env sys st2 st3 hst3, henv, h1]

/-- Decoding, augmenting and encoding the variable a second time leaves the
environment as it is, for a JSON library that encodes a map by its fields and
decodes its own output to the same fields with numbers through `float64`. -/
theorem augmentVcapApplication_again (sys : Sys) (st st1 : State)
    (hcongr : ∀ a b, sameFields a b → sys.jsonMarshal a = sys.jsonMarshal b)
    (hrt : ∀ m text,
      sys.jsonUnmarshalObject (getenv st.env "VCAP_APPLICATION") = Except.ok (some m) →
      sys.jsonMarshal (augmentDescriptor sys st.env m) = Except.ok text →
      ∃ m2, sys.jsonUnmarshalObject text = Except.ok (some m2) ∧
        sameFields m2 (decodedView (augmentDescriptor sys st.env m)))
    (hdecoded : ∀ m,
      sys.jsonUnmarshalObject (getenv st.env "VCAP_APPLICATION") = Except.ok (some m) →
      sameFields (decodedView m) m)
    (h : augmentVcapApplication sys st = some st1) :
    ∃ st2, augmentVcapApplication sys st1 = some st2 ∧ st2.env = st1.env := by
  rcases hdec : sys.jsonUnmarshalObject (getenv st.env "VCAP_APPLICATION") with err | (_ | m)
  · have hst1 : st1 = st := by
      simp only [augmentVcapApplication, hdec, Option.some.injEq] at h
      exact h.symm
    subst hst1
    exact ⟨st1, h, rfl⟩
  · rw [(augmentVcapApplication_none_iff sys st).2 hdec] at h
    cases h
  · rcases henc : sys.jsonMarshal (augmentDescriptor sys st.env m) with err | text
    · have hst1 : st1 = st := by
        simp only [augmentVcapApplication, hdec, henc, Option.some.injEq] at h
        exact h.symm
      subst hst1
      exact ⟨st1, h, rfl⟩
    · have hst1 : st1 = st.setenv "VCAP_APPLICATION" text := by
        simp only [augmentVcapApplication, hdec, henc, Option.some.injEq] at h
        exact h.symm
      subst hst1
      obtain ⟨m2, hm2, hsame⟩ := hrt m text hdec henc
      have hagain : sys.jsonMarshal (augmentDescriptor sys
          (st.setenv "VCAP_APPLICATION" text).env m2) = Except.ok text := by
        rw [State.setenv_env, augmentDescriptor_congr sys _ st.env m2
          (getenv_setenv_ne _ _ _ _ (by decide)) (getenv_setenv_ne _ _ _ _ (by decide))
          (getenv_setenv_ne _ _ _ _ (by decide)),
          hcongr _ _ (augmentDescriptor_redecoded sys st.env m m2 hsame (hdecoded m hdec)), henc]
      refine ⟨(st.setenv "VCAP_APPLICATION" text).setenv "VCAP_APPLICATION" text, ?_, ?_⟩
      · have hread : getenv (st.setenv "VCAP_APPLICATION" text).env "VCAP_APPLICATION" = text :=
          getenv_setenv_self _ _ _
        simp only [augmentVcapApplication, hread, hm2, hagain]
      · exact assocSet_assocSet _ _ _

/-! ## Command resolution -/

theorem startCommandFromStagingInfo_fst (sys : Sys) (path : String) (st st2 : State) :
    (startCommandFromStagingInfo sys path st).1 = (startCommandFromStagingInfo sys path st2).1 := by
  unfold startCommandFromStagingInfo
  simp only
  split
  · split <;> rfl
  · split <;> rfl

theorem startCommandFromStagingInfo_snd (sys : Sys) (path : String) (st : State) :
    (startCommandFromStagingInfo sys path st).2 =
      (st.emit (Event.startCommandFromStagingInfo path)).emit (Event.readFile path) := by
  unfold startCommandFromStagingInfo
  simp only
  split
  · split <;> rfl
  · split <;> rfl

theorem resolveCommand_of_ne (sys : Sys) (c : String) (st : State) (hne : c ≠ "") :
    resolveCommand sys c st = (Except.ok c, st) := by
  simp [resolveCommand, hne]

theorem resolveCommand_of_empty (sys : Sys) (st : State) :
    resolveCommand sys "" st = startCommandFromStagingInfo sys "staging_info.yml" st := by
  simp [resolveCommand]

theorem resolveCommand_fst (sys : Sys) (c : String) (st st2 : State) :
    (resolveCommand sys c st).1 = (resolveCommand sys c st2).1 := by
  unfold resolveCommand
  split
  · rfl
  · exact startCommandFromStagingInfo_fst sys _ st st2

theorem resolveCommand_env (sys : Sys) (c : String) (st : State) :
    (resolveCommand sys c st).2.env = st.env := by
  unfold resolveCommand
  split
  · rfl
  · rw [startCommandFromStagingInfo_snd]
    rfl

theorem resolveCommand_log (sys : Sys) (c : String) (st : State) (e : Event)
    (he : e ∈ (resolveCommand sys c st).2.log) :
    e ∈ st.log ∨ (c = "" ∧ (e = Event.startCommandFromStagingInfo "staging_info.yml" ∨
      e = Event.readFile "staging_info.yml")) := by
  unfold resolveCommand at he
  split at he
  · exact Or.inl he
  · rename_i hc
    rw [startCommandFromStagingInfo_snd] at he
    simp only [State.emit_log, List.mem_append, List.mem_singleton] at he
    simp only [ne_eq, not_not] at hc
    tauto

/-! ## Platform options and interpolation -/

theorem interpolateServices_lookup (sys : Sys) (opts : Option PlatformOptions) (st : State)
    (key : String) (h : key ≠ "VCAP_SERVICES") :
    lookupEnv (interpolateServices sys opts st).2.env key = lookupEnv st.env key := by
  unfold interpolateServices
  split
  · rfl
  · split
    · split
      · rfl
      · simp only
        split
        · rfl
        · split
          · rfl
          · simp [State.setenv_env, State.emit_env, lookupEnv_setenv_ne, h]
    · rfl

/-- Without a configured credhub URI nothing happens. -/
theorem interpolateServices_noop (sys : Sys) (opts : Option PlatformOptions) (st : State)
    (h : ∀ po, opts = some po → po.CredhubURI = "") :
    interpolateServices sys opts st = (none, st) := by
  unfold interpolateServices
  split
  · rfl
  · rename_i po
    simp [h po rfl]

/-! ## Shape of `main` -/

theorem osArgs_length (sys : Sys) : sys.osArgs.length = sys.positional.length + 1 := by
  simp [Sys.osArgs]

theorem main_of_few (sys : Sys) (h : sys.osArgs.length < 4) :
    main sys = (Outcome.exit Fatal.insufficientArguments 1,
      { env := sys.env,
        log := [Event.stderr (sys.progName ++ ": received only " ++
            toString (sys.osArgs.length - 1) ++ " arguments\n"),
          Event.stderr ("Usage: " ++ sys.progName ++
            " <app-directory> <start-command> <metadata> [<platform-options>]")] }) := by
  simp [main, h, State.emit]

theorem main_of_panic (sys : Sys) (h : 4 ≤ sys.osArgs.length)
    (hst : augmentVcapApplication sys (pathState sys) = none) :
    main sys = (Outcome.panic "assignment to entry in nil map", pathState sys) := by
  have h2 : ¬ sys.osArgs.length < 4 := by omega
  unfold pathState at hst
  simp only [main, h2, if_false, hst]
  rfl

theorem main_of_built (sys : Sys) (st1 : State) (h : 4 ≤ sys.osArgs.length)
    (hst : augmentVcapApplication sys (pathState sys) = some st1) :
    main sys = resolveAndLaunch sys
      (setPathVariables sys (sys.osArgs.getD 1 "") { env := sys.env, log := [] }).1
      (sys.osArgs.getD 2 "") st1 := by
  have h2 : ¬ sys.osArgs.length < 4 := by omega
  unfold pathState at hst
  simp only [main, h2, if_false, hst]

/-- With enough arguments `main` panics exactly when the decoder leaves a nil
map for the initial `VCAP_APPLICATION`. -/
theorem main_panic_iff (sys : Sys) :
    augmentVcapApplication sys (pathState sys) = none ↔
      sys.jsonUnmarshalObject (getenv sys.env "VCAP_APPLICATION") = Except.ok none := by
  rw [augmentVcapApplication_none_iff, pathState_vcap]

/-- The state in which command resolution starts keeps every variable that
environment construction does not write. -/
theorem entry_lookup (sys : Sys) (st1 : State) (key : String)
    (hst : augmentVcapApplication sys (pathState sys) = some st1)
    (hk : key ∉ constructedVariables) :
    lookupEnv st1.env key = lookupEnv sys.env key := by
  have hk2 := hk
  simp only [constructedVariables, List.mem_cons, List.mem_singleton, List.not_mem_nil,
    or_false, not_or] at hk2
  rw [augmentVcapApplication_lookup sys _ _ key hst hk2.2.2.2, pathState_lookup sys key hk]

theorem entry_log (sys : Sys) (st1 : State) (e : Event)
    (hst : augmentVcapApplication sys (pathState sys) = some st1) (he : e ∈ st1.log) :
    ∃ k v, e = Event.setenv k v ∧ k ∈ constructedVariables := by
  rcases augmentVcapApplication_log sys _ _ e hst he with h | h
  · exact pathState_log sys e h
  · exact h

theorem interpolateServices_exit (sys : Sys) (opts : Option PlatformOptions) (st : State)
    (f : Fatal) (c : Nat)
    (h : (interpolateServices sys opts st).1 = some (Outcome.exit f c)) :
    c = exitStatus f ∧ f.beforePlatformOptions = false := by
  unfold interpolateServices at h
  split at h
  · simp at h
  · split at h
    · split at h
      · simp at h
        obtain ⟨rfl, rfl⟩ := h
        exact ⟨rfl, rfl⟩
      · simp only at h
        split at h
        · simp at h
          obtain ⟨rfl, rfl⟩ := h
          exact ⟨rfl, rfl⟩
        · split at h
          · simp at h
            obtain ⟨rfl, rfl⟩ := h
            exact ⟨rfl, rfl⟩
          · simp at h
    · simp at h

theorem interpolateServices_not_run (sys : Sys) (opts : Option PlatformOptions) (st : State)
    (d cmd : String) :
    (interpolateServices sys opts st).1 ≠ some (Outcome.runProcess d cmd) := by
  unfold interpolateServices
  split
  · simp
  · split
    · split
      · simp
      · simp only
        split
        · simp
        · split <;> simp
    · simp

theorem launch_exit (sys : Sys) (dir command : String) (st : State) (f : Fatal) (c : Nat)
    (h : (launch sys dir command st).1 = Outcome.exit f c) : c = exitStatus f := by
  unfold launch at h
  split at h
  · simp at h
    obtain ⟨rfl, rfl⟩ := h
    rfl
  · simp only at h
    split at h
    · simp at h
      obtain ⟨rfl, rfl⟩ := h
      rfl
    · split at h
      · rename_i out st2 heq
        simp only at h
        subst h
        exact (interpolateServices_exit sys _ _ f c (by rw [heq])).1
      · simp at h

theorem resolveAndLaunch_of_resolved (sys : Sys) (dir sc c : String) (st : State)
    (h : (resolveCommand sys sc st).1 = Except.ok c) :
    resolveAndLaunch sys dir sc st = launch sys dir c (resolveCommand sys sc st).2 := by
  have h2 : resolveCommand sys sc st = (Except.ok c, (resolveCommand sys sc st).2) :=
    Prod.ext h rfl
  unfold resolveAndLaunch
  rw [h2]

theorem resolveAndLaunch_of_unresolved (sys : Sys) (dir sc err : String) (st : State)
    (h : (resolveCommand sys sc st).1 = Except.error err) :
    resolveAndLaunch sys dir sc st = (Outcome.exit Fatal.invalidStagingInfo 1,
      (resolveCommand sys sc st).2.emit (Event.stderr ("Invalid staging info - " ++ err))) := by
  have h2 : resolveCommand sys sc st = (Except.error err, (resolveCommand sys sc st).2) :=
    Prod.ext h rfl
  unfold resolveAndLaunch
  rw [h2]

theorem resolveAndLaunch_exit (sys : Sys) (dir sc : String) (st : State) (f : Fatal) (c : Nat)
    (h : (resolveAndLaunch sys dir sc st).1 = Outcome.exit f c) : c = exitStatus f := by
  rcases hres : (resolveCommand sys sc st).1 with err | cmd
  · rw [resolveAndLaunch_of_unresolved sys dir sc err st hres] at h
    simp at h
    obtain ⟨rfl, rfl⟩ := h
    rfl
  · rw [resolveAndLaunch_of_resolved sys dir sc cmd st hres] at h
    exact launch_exit sys _ _ _ f c h

/-- The exit code at every fatal site is the one tabulated by `exitStatus`. -/
theorem main_exit (sys : Sys) (f : Fatal) (c : Nat)
    (h : (main sys).1 = Outcome.exit f c) : c = exitStatus f := by
  by_cases hlen : sys.osArgs.length < 4
  · rw [main_of_few sys hlen] at h
    simp at h
    obtain ⟨rfl, rfl⟩ := h
    rfl
  · rcases hst : augmentVcapApplication sys (pathState sys) with _ | st1
    · rw [main_of_panic sys (by omega) hst] at h
      simp at h
    · rw [main_of_built sys st1 (by omega) hst] at h
      exact resolveAndLaunch_exit sys _ _ _ f c h

theorem launch_of_empty (sys : Sys) (dir : String) (st : State) :
    launch sys dir "" st = (Outcome.exit Fatal.noStartCommand 1,
      st.emit (Event.stderr
        (sys.progName ++ ": no start command specified or detected in droplet"))) := by
  simp [launch]

theorem launch_of_bad_options (sys : Sys) (dir command : String) (st : State) (err : String)
    (hne : command ≠ "") (hpo : platformOptions sys = Except.error err) :
    launch sys dir command st = (Outcome.exit Fatal.invalidPlatformOptions 3,
      (st.emit Event.platformOptions).emit (Event.stderr ("Invalid platform options: " ++ err))) := by
  simp [launch, hne, hpo]

theorem launch_of_options (sys : Sys) (dir command : String) (st : State)
    (opts : Option PlatformOptions)
    (hne : command ≠ "") (hpo : platformOptions sys = Except.ok opts) :
    launch sys dir command st =
      match interpolateServices sys opts (st.emit Event.platformOptions) with
      | (some out, st2) => (out, st2)
      | (none, st2) => (Outcome.runProcess dir command, st2.emit (Event.gomaxprocs 1)) := by
  simp [launch, hne, hpo]

/-- Neither `interpolateServices` nor `launch` reads the staging file. -/
theorem interpolateServices_log_staging (sys : Sys) (opts : Option PlatformOptions) (st : State)
    (path : String) (e : Event)
    (hs : e = Event.startCommandFromStagingInfo path ∨ e = Event.readFile path)
    (he : e ∈ (interpolateServices sys opts st).2.log) : e ∈ st.log := by
  unfold interpolateServices at he
  split at he
  · exact he
  · split at he
    · split at he
      · rcases hs with rfl | rfl <;> simpa [State.emit_log] using he
      · simp only at he
        split at he
        · rcases hs with rfl | rfl <;> simpa [State.emit_log] using he
        · split at he
          · rcases hs with rfl | rfl <;> simpa [State.emit_log] using he
          · rcases hs with rfl | rfl <;> simpa [State.emit_log, State.setenv_log] using he
    · exact he

theorem launch_log_staging (sys : Sys) (dir command : String) (st : State)
    (path : String) (e : Event)
    (hs : e = Event.startCommandFromStagingInfo path ∨ e = Event.readFile path)
    (he : e ∈ (launch sys dir command st).2.log) : e ∈ st.log := by
  unfold launch at he
  split at he
  · rcases hs with rfl | rfl <;> simpa [State.emit_log] using he
  · simp only at he
    split at he
    · rcases hs with rfl | rfl <;> simpa [State.emit_log] using he
    · split at he
      · rename_i opts hpo x out st2 heq
        have h2 : e ∈ (interpolateServices sys opts (st.emit Event.platformOptions)).2.log := by
          rw [heq]
          exact he
        have h3 := interpolateServices_log_staging sys _ _ path e hs h2
        rcases hs with rfl | rfl <;> simpa [State.emit_log] using h3
      · rename_i opts hpo x st2 heq
        have h2 : e ∈ (interpolateServices sys opts (st.emit Event.platformOptions)).2.log := by
          rw [heq]
          rcases hs with rfl | rfl <;> simpa [State.emit_log] using he
        have h3 := interpolateServices_log_staging sys _ _ path e hs h2
        rcases hs with rfl | rfl <;> simpa [State.emit_log] using h3

theorem launch_command (sys : Sys) (dir command : String) (st : State) (d cmd : String)
    (h : (launch sys dir command st).1 = Outcome.runProcess d cmd) : d = dir ∧ cmd = command := by
  unfold launch at h
  split at h
  · simp at h
  · simp only at h
    split at h
    · simp at h
    · split at h
      · rename_i out st2 heq
        simp only at h
        subst h
        exact absurd (by rw [heq]) (interpolateServices_not_run sys _ _ d cmd)
      · simp at h
        exact ⟨h.1.symm, h.2.symm⟩

/-- With enough arguments and a completed environment construction, `main`
goes on with the command resolved for the invocation. -/
theorem main_of_resolved (sys : Sys) (st1 : State) (c : String) (h : 4 ≤ sys.osArgs.length)
    (hst : augmentVcapApplication sys (pathState sys) = some st1)
    (hcmd : resolvedCommand sys = Except.ok c) :
    main sys = launch sys
      (setPathVariables sys (sys.osArgs.getD 1 "") { env := sys.env, log := [] }).1 c
      (resolveCommand sys (sys.osArgs.getD 2 "") st1).2 := by
  rw [main_of_built sys st1 h hst]
  apply resolveAndLaunch_of_resolved
  rw [resolveCommand_fst sys _ _ { env := sys.env, log := [] }]
  exact hcmd

theorem main_of_unresolved (sys : Sys) (st1 : State) (err : String) (h : 4 ≤ sys.osArgs.length)
    (hst : augmentVcapApplication sys (pathState sys) = some st1)
    (hcmd : resolvedCommand sys = Except.error err) :
    main sys = (Outcome.exit Fatal.invalidStagingInfo 1,
      (resolveCommand sys (sys.osArgs.getD 2 "") st1).2.emit
        (Event.stderr ("Invalid staging info - " ++ err))) := by
  rw [main_of_built sys st1 h hst]
  apply resolveAndLaunch_of_unresolved
  rw [resolveCommand_fst sys _ _ { env := sys.env, log := [] }]
  exact hcmd

/-- When the launch phase starts only the constructed variables have been written. -/
theorem resolved_lookup (sys : Sys) (st1 : State) (key : String)
    (hst : augmentVcapApplication sys (pathState sys) = some st1)
    (h : key ∉ constructedVariables) :
    lookupEnv (resolveCommand sys (sys.osArgs.getD 2 "") st1).2.env key =
      lookupEnv sys.env key := by
  rw [resolveCommand_env, entry_lookup sys st1 key hst h]

theorem resolved_getenv (sys : Sys) (st1 : State) (key : String)
    (hst : augmentVcapApplication sys (pathState sys) = some st1)
    (h : key ∉ constructedVariables) :
    getenv (resolveCommand sys (sys.osArgs.getD 2 "") st1).2.env key = getenv sys.env key :=
  getenv_eq_of_lookup _ _ key (resolved_lookup sys st1 key hst h)

/-- When the launch phase starts the credhub client has not been called and
`platformOptions` has not been called. -/
theorem resolved_log (sys : Sys) (st1 : State) (e : Event)
    (hst : augmentVcapApplication sys (pathState sys) = some st1)
    (he : e ∈ (resolveCommand sys (sys.osArgs.getD 2 "") st1).2.log) :
    e.callsCredhub = false ∧ e ≠ Event.platformOptions := by
  rcases resolveCommand_log sys _ _ e he with h | ⟨_, h | h⟩
  · obtain ⟨k, v, h2, _⟩ := entry_log sys st1 e hst h
    subst h2
    exact ⟨rfl, by simp⟩
  · subst h
    exact ⟨rfl, by simp⟩
  · subst h
    exact ⟨rfl, by simp⟩

theorem interpolateServices_of_missing (sys : Sys) (po : PlatformOptions) (st : State)
    (huri : po.CredhubURI ≠ "")
    (hcred : getenv st.env "CF_INSTANCE_CERT" = "" ∨ getenv st.env "CF_INSTANCE_KEY" = "") :
    interpolateServices sys (some po) st =
      (some (Outcome.exit Fatal.missingClientCredentials 6),
        st.emit (Event.stderr "Missing CF_INSTANCE_CERT and/or CF_INSTANCE_KEY")) := by
  simp [interpolateServices, huri, hcred]

/-- Interpolation lets the launch go on exactly when no credhub URI is
configured, or both credentials are there and both credhub calls succeed. -/
theorem interpolateServices_none_iff (sys : Sys) (opts : Option PlatformOptions) (st : State) :
    (interpolateServices sys opts st).1 = none ↔
      ∀ po, opts = some po → po.CredhubURI ≠ "" →
        getenv st.env "CF_INSTANCE_CERT" ≠ "" ∧ getenv st.env "CF_INSTANCE_KEY" ≠ "" ∧
        ∃ ch out, sys.credhubNew po.CredhubURI (getenv st.env "CF_INSTANCE_CERT")
            (getenv st.env "CF_INSTANCE_KEY") = Except.ok ch ∧
          sys.interpolateString ch (getenv st.env "VCAP_SERVICES") = Except.ok out := by
  cases opts with
  | none => simp [interpolateServices]
  | some po =>
    by_cases huri : po.CredhubURI = ""
    · simp [interpolateServices, huri]
    · by_cases hcred : getenv st.env "CF_INSTANCE_CERT" = "" ∨ getenv st.env "CF_INSTANCE_KEY" = ""
      · rw [interpolateServices_of_missing sys po st huri hcred]
        simp only [reduceCtorEq, false_iff, not_forall]
        refine ⟨po, rfl, huri, ?_⟩
        rintro ⟨h1, h2, _⟩
        rcases hcred with h | h
        · exact h1 h
        · exact h2 h
      · have hc2 := hcred
        simp only [not_or] at hc2
        cases hnew : sys.credhubNew po.CredhubURI (getenv st.env "CF_INSTANCE_CERT")
            (getenv st.env "CF_INSTANCE_KEY") with
        | error err =>
          simp [interpolateServices, huri, hcred, hnew]
        | ok ch =>
          cases hint : sys.interpolateString ch (getenv st.env "VCAP_SERVICES") with
          | error err =>
            simp [interpolateServices, huri, hcred, hnew, hint]
          | ok out =>
            simp [interpolateServices, huri, hcred, hnew, hint, hc2.1, hc2.2]

/-- The platform options decode exactly when the payload is absent, empty, or
passes base64 and JSON decoding. -/
theorem platformOptions_ok_iff (sys : Sys) (opts : Option PlatformOptions) :
    platformOptions sys = Except.ok opts ↔
      ((sys.osArgs.length ≤ 4 ∨ sys.osArgs.getD 4 "" = "") ∧ opts = none) ∨
      (4 < sys.osArgs.length ∧ sys.osArgs.getD 4 "" ≠ "" ∧
        ∃ json po, sys.base64Decode (sys.osArgs.getD 4 "") = Except.ok json ∧
          sys.jsonUnmarshalPlatformOptions json = Except.ok po ∧ opts = some po) := by
  by_cases hlen : sys.osArgs.length > 4
  · by_cases hempty : sys.osArgs.getD 4 "" = ""
    · have hp : platformOptions sys = Except.ok none := by
        simp only [platformOptions, hlen, hempty, reduceIte]
      rw [hp]
      constructor
      · intro h
        exact Or.inl ⟨Or.inr hempty, (Except.ok.inj h).symm⟩
      · rintro (⟨_, rfl⟩ | ⟨_, h, _⟩)
        · rfl
        · exact absurd hempty h
    · have hleft : ¬ (sys.osArgs.length ≤ 4 ∨ sys.osArgs.getD 4 "" = "") := by
        rintro (h | h)
        · omega
        · exact hempty h
      rcases hb : sys.base64Decode (sys.osArgs.getD 4 "") with err | json
      · have hp : platformOptions sys = Except.error err := by
          simp only [platformOptions, hlen, hempty, hb, reduceIte]
        rw [hp]
        constructor
        · intro h
          cases h
        · rintro (⟨h, _⟩ | ⟨_, _, json, po, h, _⟩)
          · exact absurd h hleft
          · cases h
      · rcases hj : sys.jsonUnmarshalPlatformOptions json with err | po
        · have hp : platformOptions sys = Except.error err := by
            simp only [platformOptions, hlen, hempty, hb, hj, reduceIte]
          rw [hp]
          constructor
          · intro h
            cases h
          · rintro (⟨h, _⟩ | ⟨_, _, json2, po, h, h2, _⟩)
            · exact absurd h hleft
            · cases h
              rw [hj] at h2
              cases h2
        · have hp : platformOptions sys = Except.ok (some po) := by
            simp only [platformOptions, hlen, hempty, hb, hj, reduceIte]
          rw [hp]
          constructor
          · intro h
            exact Or.inr ⟨hlen, hempty, json, po, rfl, hj, (Except.ok.inj h).symm⟩
          · rintro (⟨h, _⟩ | ⟨_, _, json2, po2, h, h2, rfl⟩)
            · exact absurd h hleft
            · cases h
              rw [hj] at h2
              cases h2
              rfl
  · have hle : sys.osArgs.length ≤ 4 := by omega
    have hp : platformOptions sys = Except.ok none := by
      simp only [platformOptions, hlen, reduceIte]
    rw [hp]
    constructor
    · intro h
      exact Or.inl ⟨Or.inl hle, (Except.ok.inj h).symm⟩
    · rintro (⟨_, rfl⟩ | ⟨h, _⟩)
      · rfl
      · exact absurd h hlen

/-- A non-empty command is resolved exactly when the argument is non-empty or
the staging file reads, decodes and names a non-empty command. -/
theorem resolvedCommand_ok_iff (sys : Sys) :
    (∃ c, resolvedCommand sys = Except.ok c ∧ c ≠ "") ↔
      (sys.osArgs.getD 2 "" ≠ "" ∨
        ∃ data info, sys.readFile "staging_info.yml" = Except.ok data ∧
          sys.yamlUnmarshal data = Except.ok info ∧ info.StartCommand ≠ "") := by
  by_cases harg : sys.osArgs.getD 2 "" = ""
  · have hres : resolvedCommand sys =
        (startCommandFromStagingInfo sys "staging_info.yml" { env := sys.env, log := [] }).1 := by
      unfold resolvedCommand
      rw [harg, resolveCommand_of_empty]
    rw [hres]
    rcases hread : sys.readFile "staging_info.yml" with err | data
    · constructor
      · rintro ⟨c, h, hc⟩
        exfalso
        unfold startCommandFromStagingInfo at h
        simp only [hread] at h
        by_cases hne : err.notExist = true
        · simp only [hne, if_true] at h
          exact hc (Except.ok.inj h).symm
        · simp only [hne] at h
          cases h
      · rintro (h | ⟨data, info, h, _⟩)
        · exact absurd harg h
        · cases h
    · rcases hy : sys.yamlUnmarshal data with err | info
      · have hval : (startCommandFromStagingInfo sys "staging_info.yml"
            { env := sys.env, log := [] }).1 = Except.error "invalid YAML" := by
          simp [startCommandFromStagingInfo, hread, hy]
        rw [hval]
        constructor
        · rintro ⟨c, h, _⟩
          cases h
        · rintro (h | ⟨data2, info, h, h2, _⟩)
          · exact absurd harg h
          · cases h
            rw [hy] at h2
            cases h2
      · have hval : (startCommandFromStagingInfo sys "staging_info.yml"
            { env := sys.env, log := [] }).1 = Except.ok info.StartCommand := by
          simp [startCommandFromStagingInfo, hread, hy]
        rw [hval]
        constructor
        · rintro ⟨c, h, hc⟩
          cases h
          exact Or.inr ⟨data, info, rfl, hy, hc⟩
        · rintro (h | ⟨data2, info2, h, h2, h3⟩)
          · exact absurd harg h
          · cases h
            rw [hy] at h2
            cases h2
            exact ⟨_, rfl, h3⟩
  · have hres : resolvedCommand sys = Except.ok (sys.osArgs.getD 2 "") := by
      unfold resolvedCommand
      rw [resolveCommand_of_ne sys _ _ harg]
    rw [hres]
    constructor
    · intro _
      exact Or.inl harg
    · intro _
      exact ⟨_, rfl, harg⟩

/-- The launch phase reaches `runProcess` exactly when the command is not
empty, the platform options decode, and interpolation lets the launch go on. -/
theorem launch_launched_iff (sys : Sys) (dir command : String) (st : State) :
    (launch sys dir command st).1.launched = true ↔
      command ≠ "" ∧ ∃ opts, platformOptions sys = Except.ok opts ∧
        (interpolateServices sys opts (st.emit Event.platformOptions)).1 = none := by
  by_cases hc : command = ""
  · subst hc
    rw [launch_of_empty]
    simp [Outcome.launched]
  · cases hpo : platformOptions sys with
    | error err =>
      rw [launch_of_bad_options sys dir command st err hc hpo]
      simp [Outcome.launched]
    | ok opts =>
      rw [launch_of_options sys dir command st opts hc hpo]
      cases hint : interpolateServices sys opts (st.emit Event.platformOptions) with
      | mk res st2 =>
        cases res with
        | none => simp [Outcome.launched, hc, hint]
        | some out =>
          simp only [hc, ne_eq, not_false_eq_true, Except.ok.injEq, exists_eq_left', true_and]
          have hnot : ∀ d cmd, out ≠ Outcome.runProcess d cmd := by
            intro d cmd hout
            apply interpolateServices_not_run sys opts (st.emit Event.platformOptions) d cmd
            rw [hint, hout]
          cases out with
          | exit f code => simp [Outcome.launched, hint]
          | panic msg => simp [Outcome.launched, hint]
          | runProcess d cmd => exact absurd rfl (hnot d cmd)

/-! ## The claims -/

/-- C1 (counterexample): the exit codes of different fatal conditions are not
always different.  Too few arguments and an unresolved start command are two
different fatal conditions and both end in `os.Exit(1)`. -/
theorem C1_exit_codes_collide :
    ¬ ∀ (s1 s2 : Sys) (f g : Fatal) (c d : Nat),
      (main s1).1 = Outcome.exit f c → (main s2).1 = Outcome.exit g d → f ≠ g → c ≠ d :=
  fun h => h sampleShortSys sampleNoCommandSys Fatal.insufficientArguments Fatal.noStartCommand
    1 1 (by decide) (by decide) (by decide) rfl

/-- C1 (amended): whenever two invocations of `main` end at two different fatal
conditions, each exit code is the one tabulated in `exitStatus` (1, 1, 1, 3, 6,
4, 5), and the two codes are equal exactly when both conditions are among
insufficient arguments, invalid staging info and no start command, whose code
is 1. -/
theorem C1_exit_codes_amended (s1 s2 : Sys) (f g : Fatal) (c d : Nat)
    (h1 : (main s1).1 = Outcome.exit f c) (h2 : (main s2).1 = Outcome.exit g d)
    (hne : f ≠ g) :
    c = exitStatus f ∧ d = exitStatus g ∧
    (c = d ↔ f.beforePlatformOptions = true ∧ g.beforePlatformOptions = true) ∧
    (f.beforePlatformOptions = true → c = 1) := by
  have hc := main_exit s1 f c h1
  have hd := main_exit s2 g d h2
  subst hc hd
  refine ⟨rfl, rfl, ?_, ?_⟩
  · cases f <;> cases g <;> simp [exitStatus, Fatal.beforePlatformOptions] at hne ⊢
  · cases f <;> simp [exitStatus, Fatal.beforePlatformOptions]

/-- C1 (amended), at two invocations: missing client credentials exits 6, too
few arguments exits 1. -/
theorem C1_exit_codes_amended_witness :
    (main sampleCredhubSys).1 = Outcome.exit Fatal.missingClientCredentials 6 ∧
    (main sampleShortSys).1 = Outcome.exit Fatal.insufficientArguments 1 ∧
    (6 = exitStatus Fatal.missingClientCredentials ∧ 1 = exitStatus Fatal.insufficientArguments ∧
      ((6 : Nat) = 1 ↔ Fatal.missingClientCredentials.beforePlatformOptions = true ∧
        Fatal.insufficientArguments.beforePlatformOptions = true) ∧
      (Fatal.missingClientCredentials.beforePlatformOptions = true → (6 : Nat) = 1)) :=
  ⟨by decide, by decide,
    C1_exit_codes_amended sampleCredhubSys sampleShortSys Fatal.missingClientCredentials
      Fatal.insufficientArguments 6 1 (by decide) (by decide) (by decide)⟩

/-- C2: with fewer than three positional arguments (`len(os.Args) < 4`), for
every initial environment, `main` exits with status 1 at the
insufficient-arguments site, the environment at exit is the initial
environment, the only effects are the two writes to standard error, and
`runProcess` is not reached. -/
theorem C2_insufficient_arguments (sys : Sys) (h : sys.positional.length < 3) :
    sys.osArgs.length < 4 ∧
    (main sys).1 = Outcome.exit Fatal.insufficientArguments 1 ∧
    (main sys).2.env = sys.env ∧
    (∀ e ∈ (main sys).2.log, ∃ msg, e = Event.stderr msg) ∧
    (main sys).1.launched = false := by
  have hlen : sys.osArgs.length < 4 := by
    rw [osArgs_length]
    omega
  rw [main_of_few sys hlen]
  refine ⟨hlen, rfl, rfl, ?_, rfl⟩
  intro e he
  simp only [List.mem_cons, List.mem_singleton, List.not_mem_nil, or_false] at he
  rcases he with rfl | rfl
  · exact ⟨_, rfl⟩
  · exact ⟨_, rfl⟩

/-- C2, at an invocation with the application directory only. -/
theorem C2_insufficient_arguments_witness :
    sampleShortSys.positional.length < 3 ∧
    (sampleShortSys.osArgs.length < 4 ∧
      (main sampleShortSys).1 = Outcome.exit Fatal.insufficientArguments 1 ∧
      (main sampleShortSys).2.env = sampleShortSys.env ∧
      (∀ e ∈ (main sampleShortSys).2.log, ∃ msg, e = Event.stderr msg) ∧
      (main sampleShortSys).1.launched = false) :=
  ⟨by decide, C2_insufficient_arguments sampleShortSys (by decide)⟩

/-- C3: with at least three positional arguments and a non-empty start-command
argument `c`, the resolved command is `c`; command resolution leaves the state
untouched, so `startCommandFromStagingInfo` is not called and the staging file
is not read anywhere in `main`; the run of `main` is the same whatever
`ioutil.ReadFile` and `yaml.Unmarshal` would answer; and if `runProcess` is
reached, its command is `c`. -/
theorem C3_explicit_command (sys : Sys) (c : String) (hlen : 4 ≤ sys.osArgs.length)
    (hc : sys.osArgs.getD 2 "" = c) (hne : c ≠ "") :
    resolvedCommand sys = Except.ok c ∧
    (∀ st, resolveCommand sys c st = (Except.ok c, st)) ∧
    (∀ path, Event.startCommandFromStagingInfo path ∉ (main sys).2.log ∧
      Event.readFile path ∉ (main sys).2.log) ∧
    (∀ readFile yamlUnmarshal,
      main { sys with readFile := readFile, yamlUnmarshal := yamlUnmarshal } = main sys) ∧
    (∀ d cmd, (main sys).1 = Outcome.runProcess d cmd → cmd = c) := by
  have hres : resolvedCommand sys = Except.ok c := by
    unfold resolvedCommand
    rw [hc, resolveCommand_of_ne sys c _ hne]
  refine ⟨hres, fun st => resolveCommand_of_ne sys c st hne, ?_⟩
  rcases hst : augmentVcapApplication sys (pathState sys) with _ | st1
  · -- the panic of line 52 ends the run before command resolution
    have hmain := main_of_panic sys hlen hst
    refine ⟨?_, ?_, ?_⟩
    · have key : ∀ path e,
          (e = Event.startCommandFromStagingInfo path ∨ e = Event.readFile path) →
          e ∉ (main sys).2.log := by
        intro path e hs he
        rw [hmain] at he
        obtain ⟨k, v, h2, _⟩ := pathState_log sys e he
        rcases hs with rfl | rfl <;> simp at h2
      exact fun path => ⟨key path _ (Or.inl rfl), key path _ (Or.inr rfl)⟩
    · intro rf ym
      rw [hmain]
      exact main_of_panic { sys with readFile := rf, yamlUnmarshal := ym } hlen hst
    · intro d cmd h
      rw [hmain] at h
      simp at h
  · have hmain : main sys = launch sys
        (setPathVariables sys (sys.osArgs.getD 1 "") { env := sys.env, log := [] }).1 c st1 := by
      rw [main_of_resolved sys st1 c hlen hst hres, hc, resolveCommand_of_ne sys c _ hne]
    refine ⟨?_, ?_, ?_⟩
    · have key : ∀ path e,
          (e = Event.startCommandFromStagingInfo path ∨ e = Event.readFile path) →
          e ∉ (main sys).2.log := by
        intro path e hs he
        rw [hmain] at he
        have h1 := launch_log_staging sys _ _ _ path e hs he
        obtain ⟨k, v, h2, _⟩ := entry_log sys st1 e hst h1
        rcases hs with rfl | rfl <;> simp at h2
      exact fun path => ⟨key path _ (Or.inl rfl), key path _ (Or.inr rfl)⟩
    · intro rf ym
      have hres2 : resolvedCommand { sys with readFile := rf, yamlUnmarshal := ym } =
          Except.ok c := by
        unfold resolvedCommand
        have hc2 : (Sys.osArgs { sys with readFile := rf, yamlUnmarshal := ym }).getD 2 "" = c :=
          hc
        rw [hc2, resolveCommand_of_ne _ c _ hne]
      have hc2 : (Sys.osArgs { sys with readFile := rf, yamlUnmarshal := ym }).getD 2 "" = c := hc
      rw [hmain, main_of_resolved { sys with readFile := rf, yamlUnmarshal := ym } st1 c hlen hst
        hres2, hc2, resolveCommand_of_ne _ c _ hne]
      rfl
    · intro d cmd h
      rw [hmain] at h
      exact (launch_command sys _ _ _ d cmd h).2

/-- C3, at a launch of `bundle exec rails server`, which reaches `runProcess`. -/
theorem C3_explicit_command_witness :
    (main sampleSys).1 = Outcome.runProcess "/app" "bundle exec rails server" ∧
    (resolvedCommand sampleSys = Except.ok "bundle exec rails server" ∧
    (∀ st, resolveCommand sampleSys "bundle exec rails server" st =
      (Except.ok "bundle exec rails server", st)) ∧
    (∀ path, Event.startCommandFromStagingInfo path ∉ (main sampleSys).2.log ∧
      Event.readFile path ∉ (main sampleSys).2.log) ∧
    (∀ readFile yamlUnmarshal,
      main { sampleSys with readFile := readFile, yamlUnmarshal := yamlUnmarshal } =
        main sampleSys) ∧
    (∀ d cmd, (main sampleSys).1 = Outcome.runProcess d cmd →
      cmd = "bundle exec rails server")) :=
  ⟨by decide, C3_explicit_command sampleSys "bundle exec rails server" (by decide) (by decide)
    (by decide)⟩

/-- Without a staging file and with an empty start-command argument, `main`
exits at the no-start-command site whenever environment construction completes:
`platformOptions` is not called and the run does not depend on the
platform-option decoders. -/
theorem exit_without_staging_file (sys : Sys) (err : FileError) (st1 : State)
    (hlen : 4 ≤ sys.osArgs.length) (hc : sys.osArgs.getD 2 "" = "")
    (hread : sys.readFile "staging_info.yml" = Except.error err) (hmissing : err.notExist = true)
    (hst : augmentVcapApplication sys (pathState sys) = some st1) :
    (main sys).1 = Outcome.exit Fatal.noStartCommand 1 ∧
    Event.platformOptions ∉ (main sys).2.log ∧
    (main sys).1.launched = false := by
  have hstart : ∀ st, startCommandFromStagingInfo sys "staging_info.yml" st =
      (Except.ok "", (st.emit (Event.startCommandFromStagingInfo "staging_info.yml")).emit
        (Event.readFile "staging_info.yml")) := by
    intro st
    simp [startCommandFromStagingInfo, hread, hmissing]
  have hres : resolvedCommand sys = Except.ok "" := by
    unfold resolvedCommand
    rw [hc, resolveCommand_of_empty, hstart]
  have hmain : main sys = (Outcome.exit Fatal.noStartCommand 1,
      (resolveCommand sys (sys.osArgs.getD 2 "") st1).2.emit
        (Event.stderr (sys.progName ++ ": no start command specified or detected in droplet"))) := by
    rw [main_of_resolved sys st1 "" hlen hst hres, launch_of_empty]
  rw [hmain]
  refine ⟨rfl, ?_, rfl⟩
  intro he
  simp only [State.emit_log, List.mem_append, List.mem_singleton] at he
  rcases he with he | he
  · exact (resolved_log sys st1 _ hst he).2 rfl
  · simp at he

/-- C4 (failing input): the invocation `launcher /app "" metadata` without a
staging file and with `VCAP_APPLICATION=null`.  `startCommandFromStagingInfo`
would return the empty command without error, but `main` never calls it: the
decoder leaves a nil map, line 52 assigns into it, and the run ends in a panic
with status 2 instead of the no-start-command exit. -/
theorem C4_nil_descriptor_panics :
    (4 ≤ sampleNullNoCommandSys.osArgs.length ∧
      sampleNullNoCommandSys.osArgs.getD 2 "" = "" ∧
      sampleNullNoCommandSys.readFile "staging_info.yml" =
        Except.error { notExist := true, msg := "no such file or directory" } ∧
      sampleNullNoCommandSys.jsonUnmarshalObject
        (getenv sampleNullNoCommandSys.env "VCAP_APPLICATION") = Except.ok none) ∧
    (startCommandFromStagingInfo sampleNullNoCommandSys "staging_info.yml"
      { env := sampleNullNoCommandSys.env, log := [] }).1 = Except.ok "" ∧
    (main sampleNullNoCommandSys).1 = Outcome.panic "assignment to entry in nil map" ∧
    (main sampleNullNoCommandSys).1.status = some 2 ∧
    (main sampleNullNoCommandSys).1 ≠ Outcome.exit Fatal.noStartCommand 1 ∧
    Event.startCommandFromStagingInfo "staging_info.yml" ∉ (main sampleNullNoCommandSys).2.log :=
  ⟨⟨by decide, by decide, rfl, rfl⟩, rfl, by decide, by decide, by decide, by decide⟩

/-- C5: when the start-command argument is empty and `staging_info.yml` is read
successfully, then (a) if the content decodes as YAML to a staging info,
`startCommandFromStagingInfo` returns its `start_command` field unchanged with
no error, that field is the command `main` resolves, and it is the command
handed to `runProcess` if the launch gets there; (b) if the content does not
decode, `startCommandFromStagingInfo` returns the error `invalid YAML`, and
`main` treats it as fatal: lines 72-113, entered in any state, end in the exit
at the invalid-staging-info site, `main` never launches, and whenever `main`
calls `startCommandFromStagingInfo` it exits at that site. -/
theorem C5_staging_file (sys : Sys) (data : String)
    (hc : sys.osArgs.getD 2 "" = "")
    (hread : sys.readFile "staging_info.yml" = Except.ok data) :
    match sys.yamlUnmarshal data with
    | Except.ok info =>
      (∀ st, (startCommandFromStagingInfo sys "staging_info.yml" st).1 =
        Except.ok info.StartCommand) ∧
      resolvedCommand sys = Except.ok info.StartCommand ∧
      (4 ≤ sys.osArgs.length → ∀ d cmd, (main sys).1 = Outcome.runProcess d cmd →
        cmd = info.StartCommand)
    | Except.error _ =>
      (∀ st, (startCommandFromStagingInfo sys "staging_info.yml" st).1 =
        Except.error "invalid YAML") ∧
      resolvedCommand sys = Except.error "invalid YAML" ∧
      (∀ dir st, (resolveAndLaunch sys dir (sys.osArgs.getD 2 "") st).1 =
        Outcome.exit Fatal.invalidStagingInfo 1) ∧
      (main sys).1.launched = false ∧
      (Event.startCommandFromStagingInfo "staging_info.yml" ∈ (main sys).2.log →
        (main sys).1 = Outcome.exit Fatal.invalidStagingInfo 1) := by
  split
  · rename_i info hyaml
    have hstart : ∀ st, startCommandFromStagingInfo sys "staging_info.yml" st =
        (Except.ok info.StartCommand,
          (st.emit (Event.startCommandFromStagingInfo "staging_info.yml")).emit
            (Event.readFile "staging_info.yml")) := by
      intro st
      simp [startCommandFromStagingInfo, hread, hyaml]
    have hres : resolvedCommand sys = Except.ok info.StartCommand := by
      unfold resolvedCommand
      rw [hc, resolveCommand_of_empty, hstart]
    refine ⟨fun st => by rw [hstart], hres, ?_⟩
    intro hlen d cmd h
    rcases hst : augmentVcapApplication sys (pathState sys) with _ | st1
    · rw [main_of_panic sys hlen hst] at h
      simp at h
    · rw [main_of_resolved sys st1 _ hlen hst hres] at h
      exact (launch_command sys _ _ _ d cmd h).2
  · rename_i e hyaml
    have hstart : ∀ st, startCommandFromStagingInfo sys "staging_info.yml" st =
        (Except.error "invalid YAML",
          (st.emit (Event.startCommandFromStagingInfo "staging_info.yml")).emit
            (Event.readFile "staging_info.yml")) := by
      intro st
      simp [startCommandFromStagingInfo, hread, hyaml]
    have hres : resolvedCommand sys = Except.error "invalid YAML" := by
      unfold resolvedCommand
      rw [hc, resolveCommand_of_empty, hstart]
    have hfatal : ∀ dir st, (resolveAndLaunch sys dir (sys.osArgs.getD 2 "") st).1 =
        Outcome.exit Fatal.invalidStagingInfo 1 := by
      intro dir st
      rw [resolveAndLaunch_of_unresolved sys dir _ "invalid YAML" st
        (by rw [hc, resolveCommand_of_empty, hstart])]
    refine ⟨fun st => by rw [hstart], hres, hfatal, ?_, ?_⟩
    · by_cases hlen : sys.osArgs.length < 4
      · rw [main_of_few sys hlen]
        rfl
      · rcases hst : augmentVcapApplication sys (pathState sys) with _ | st1
        · rw [main_of_panic sys (by omega) hst]
          rfl
        · rw [main_of_built sys st1 (by omega) hst, hfatal]
          rfl
    · intro hev
      by_cases hlen : sys.osArgs.length < 4
      · rw [main_of_few sys hlen] at hev
        simp at hev
      · rcases hst : augmentVcapApplication sys (pathState sys) with _ | st1
        · rw [main_of_panic sys (by omega) hst] at hev
          obtain ⟨k, v, h2, _⟩ := pathState_log sys _ hev
          simp at h2
        · rw [main_of_built sys st1 (by omega) hst, hfatal]

/-- C5, at a staging file holding `start_command: "bundle exec rails server"`
(the launch runs exactly that command) and at a staging file that is not YAML
(`main` calls `startCommandFromStagingInfo` and exits at the
invalid-staging-info site). -/
theorem C5_staging_file_witness :
    ((main sampleStagedSys).1 = Outcome.runProcess "/app" "bundle exec rails server" ∧
      (∀ st, (startCommandFromStagingInfo sampleStagedSys "staging_info.yml" st).1 =
        Except.ok "bundle exec rails server") ∧
      resolvedCommand sampleStagedSys = Except.ok "bundle exec rails server" ∧
      (4 ≤ sampleStagedSys.osArgs.length → ∀ d cmd,
        (main sampleStagedSys).1 = Outcome.runProcess d cmd →
          cmd = "bundle exec rails server")) ∧
    (Event.startCommandFromStagingInfo "staging_info.yml" ∈ (main sampleBadStagingSys).2.log ∧
      (∀ st, (startCommandFromStagingInfo sampleBadStagingSys "staging_info.yml" st).1 =
        Except.error "invalid YAML") ∧
      resolvedCommand sampleBadStagingSys = Except.error "invalid YAML" ∧
      (∀ dir st, (resolveAndLaunch sampleBadStagingSys dir
        (sampleBadStagingSys.osArgs.getD 2 "") st).1 =
          Outcome.exit Fatal.invalidStagingInfo 1) ∧
      (main sampleBadStagingSys).1.launched = false ∧
      (Event.startCommandFromStagingInfo "staging_info.yml" ∈ (main sampleBadStagingSys).2.log →
        (main sampleBadStagingSys).1 = Outcome.exit Fatal.invalidStagingInfo 1)) :=
  ⟨⟨by decide,
    C5_staging_file sampleStagedSys "start_command: \"bundle exec rails server\""
      (by decide) rfl⟩,
    ⟨by decide, C5_staging_file sampleBadStagingSys ": :" (by decide) rfl⟩⟩

/-- C6 (counterexample): `PORT=9007199254740993` parses as an integer and
`VCAP_APPLICATION={"foo":"bar"}` decodes to an object, `json.Marshal` writes the
port with all its digits, and `json.Unmarshal` of that text holds the port in a
`float64`: the decoded descriptor has `port = 9007199254740992`, not the
integer that `PORT` parses as. -/
theorem C6_port_beyond_float64 :
    ¬ ∀ (sys : Sys) (dir : String) (st : State) (m m2 : JsonObject) (p i : Int) (text : String),
      sys.jsonUnmarshalObject (getenv st.env "VCAP_APPLICATION") = Except.ok (some m) →
      sys.atoi (getenv st.env "PORT") = Except.ok p →
      sys.atoi (getenv st.env "INSTANCE_INDEX") = Except.ok i →
      sys.jsonMarshal (augmentDescriptor sys st.env m) = Except.ok text →
      sys.jsonUnmarshalObject text = Except.ok (some m2) →
      sameFields m2 (decodedView (augmentDescriptor sys st.env m)) →
      sameFields (decodedView m) m →
      ∃ r, buildEnvironment sys dir st = some r ∧
        sys.jsonUnmarshalObject (getenv r.2.env "VCAP_APPLICATION") = Except.ok (some m2) ∧
        assocGet "port" m2 = some (JsonValue.number p) := by
  intro h
  obtain ⟨r, _, _, hport⟩ := h sampleBigPortSys "/app" { env := sampleBigPortSys.env, log := [] }
    sampleDescriptor (decodedView sampleBigAugmented) 9007199254740993 2 sampleBigAugmentedText
    rfl rfl rfl rfl rfl (fun _ => rfl) (fun _ => rfl)
  have hgo : assocGet "port" (decodedView sampleBigAugmented) =
      some (JsonValue.number 9007199254740992) := by decide
  rw [hgo] at hport
  exact absurd hport (by decide)

/-- C6 (amended): if `VCAP_APPLICATION` decodes to an object `m`, `PORT` and
`INSTANCE_INDEX` parse as integers `p` and `i` that a `float64` holds exactly,
and `encoding/json` behaves as it does (the augmented object is encoded, its
text decodes to the same fields with numbers through `float64`, and the
numbers of `m` are decoded numbers already), then environment construction
completes, `VCAP_APPLICATION` holds the encoded text and decodes to an object
with `host = "0.0.0.0"`, `instance_id = INSTANCE_GUID`, `port = p`,
`instance_index = i`, whose keys are exactly the keys of `m` together with
those four, and in which every other key of `m` keeps its value. -/
theorem C6_descriptor_augmented (sys : Sys) (dir : String) (st : State) (m m2 : JsonObject)
    (p i : Int) (text : String)
    (hdec : sys.jsonUnmarshalObject (getenv st.env "VCAP_APPLICATION") = Except.ok (some m))
    (hp : sys.atoi (getenv st.env "PORT") = Except.ok p)
    (hi : sys.atoi (getenv st.env "INSTANCE_INDEX") = Except.ok i)
    (hpexact : float64Round p = p) (hiexact : float64Round i = i)
    (henc : sys.jsonMarshal (augmentDescriptor sys st.env m) = Except.ok text)
    (hrt : sys.jsonUnmarshalObject text = Except.ok (some m2))
    (hsame : sameFields m2 (decodedView (augmentDescriptor sys st.env m)))
    (hdecoded : sameFields (decodedView m) m) :
    ∃ r, buildEnvironment sys dir st = some r ∧
      lookupEnv r.2.env "VCAP_APPLICATION" = some text ∧
      sys.jsonUnmarshalObject (getenv r.2.env "VCAP_APPLICATION") = Except.ok (some m2) ∧
      assocGet "host" m2 = some (JsonValue.string "0.0.0.0") ∧
      assocGet "instance_id" m2 = some (JsonValue.string (getenv st.env "INSTANCE_GUID")) ∧
      assocGet "port" m2 = some (JsonValue.number p) ∧
      assocGet "instance_index" m2 = some (JsonValue.number i) ∧
      (∀ k, k ∈ assocKeys m2 ↔ k ∈ assocKeys m ∨ k ∈ runtimeKeys) ∧
      (∀ k, k ∉ runtimeKeys → assocGet k m2 = assocGet k m) := by
  have hget : ∀ k, k ≠ "HOME" → k ≠ "TMPDIR" → k ≠ "DEPS_DIR" →
      getenv (setPathVariables sys dir st).2.env k = getenv st.env k := fun k h1 h2 h3 =>
    getenv_eq_of_lookup _ _ k (setPathVariables_lookup sys dir st k h1 h2 h3)
  have haug : augmentDescriptor sys (setPathVariables sys dir st).2.env m =
      augmentDescriptor sys st.env m :=
    augmentDescriptor_congr sys _ _ m (hget _ (by decide) (by decide) (by decide))
      (hget _ (by decide) (by decide) (by decide)) (hget _ (by decide) (by decide) (by decide))
  have hstep : augmentVcapApplication sys (setPathVariables sys dir st).2 =
      some ((setPathVariables sys dir st).2.setenv "VCAP_APPLICATION" text) := by
    unfold augmentVcapApplication
    rw [hget _ (by decide) (by decide) (by decide), hdec]
    simp only
    rw [haug, henc]
  refine ⟨_, buildEnvironment_of_some sys dir st _ hstep, ?_, ?_, ?_, ?_, ?_, ?_, ?_, ?_⟩
  · exact lookupEnv_setenv_self _ _ _
  · simp only [State.setenv_env]
    rw [getenv_setenv_self, hrt]
  · rw [hsame, assocGet_decodedView, augmentDescriptor_host]
    rfl
  · rw [hsame, assocGet_decodedView, augmentDescriptor_instance_id]
    rfl
  · rw [hsame, assocGet_decodedView, augmentDescriptor_port sys _ m p hp]
    simp [JsonValue.asDecoded, hpexact]
  · rw [hsame, assocGet_decodedView, augmentDescriptor_instance_index sys _ m i hi]
    simp [JsonValue.asDecoded, hiexact]
  · intro k
    rw [sameFields_mem_keys m2 _ hsame k, assocKeys_decodedView]
    exact augmentDescriptor_keys_full sys _ m k p i hp hi
  · intro k hk
    rw [hsame, assocGet_decodedView, augmentDescriptor_frame sys _ m k hk,
      ← assocGet_decodedView, hdecoded]

/-- C6 (amended), at `VCAP_APPLICATION={"foo":"bar"}`, `PORT=8080`,
`INSTANCE_INDEX=2`, `INSTANCE_GUID=abc`, application directory `/app`. -/
theorem C6_descriptor_augmented_witness :
    ∃ r, buildEnvironment sampleSys "/app" { env := sampleSys.env, log := [] } = some r ∧
      lookupEnv r.2.env "VCAP_APPLICATION" = some sampleAugmentedText ∧
      sampleSys.jsonUnmarshalObject (getenv r.2.env "VCAP_APPLICATION") =
        Except.ok (some sampleAugmented) ∧
      assocGet "host" sampleAugmented = some (JsonValue.string "0.0.0.0") ∧
      assocGet "instance_id" sampleAugmented = some (JsonValue.string "abc") ∧
      assocGet "port" sampleAugmented = some (JsonValue.number 8080) ∧
      assocGet "instance_index" sampleAugmented = some (JsonValue.number 2) ∧
      (∀ k, k ∈ assocKeys sampleAugmented ↔ k ∈ assocKeys sampleDescriptor ∨ k ∈ runtimeKeys) ∧
      (∀ k, k ∉ runtimeKeys → assocGet k sampleAugmented = assocGet k sampleDescriptor) :=
  C6_descriptor_augmented sampleSys "/app" { env := sampleSys.env, log := [] } sampleDescriptor
    sampleAugmented 8080 2 sampleAugmentedText rfl rfl rfl (by decide) (by decide) rfl rfl
    (fun _ => rfl) (fun _ => rfl)

/-- C7: environment construction is idempotent, for a JSON library that
encodes a map by its fields, decodes its own output to the same fields with
numbers through `float64`, and hands out decoded numbers only.  When lines
33-70 complete, running them a second time on the environment they left
completes as well and gives the same environment and the same resolved
directory.  On the descriptor itself the four assignments are overwrites:
assigning again returns the same object, unique keys stay unique, and every
other field keeps its value. -/
theorem C7_construction_idempotent (sys : Sys) (dir : String) (st : State)
    (hcongr : ∀ a b, sameFields a b → sys.jsonMarshal a = sys.jsonMarshal b)
    (hrt : ∀ m text,
      sys.jsonUnmarshalObject (getenv st.env "VCAP_APPLICATION") = Except.ok (some m) →
      sys.jsonMarshal (augmentDescriptor sys st.env m) = Except.ok text →
      ∃ m2, sys.jsonUnmarshalObject text = Except.ok (some m2) ∧
        sameFields m2 (decodedView (augmentDescriptor sys st.env m)))
    (hdecoded : ∀ m,
      sys.jsonUnmarshalObject (getenv st.env "VCAP_APPLICATION") = Except.ok (some m) →
      sameFields (decodedView m) m) :
    (∀ r, buildEnvironment sys dir st = some r →
      ∃ r2, buildEnvironment sys dir r.2 = some r2 ∧ r2.2.env = r.2.env ∧ r2.1 = r.1) ∧
    (∀ env m, augmentDescriptor sys env (augmentDescriptor sys env m) =
      augmentDescriptor sys env m) ∧
    (∀ env m, (assocKeys m).Nodup → (assocKeys (augmentDescriptor sys env m)).Nodup) ∧
    (∀ env m k, k ∉ runtimeKeys →
      assocGet k (augmentDescriptor sys env m) = assocGet k m) := by
  refine ⟨?_, augmentDescriptor_idem sys, augmentDescriptor_nodup sys,
    augmentDescriptor_frame sys⟩
  intro r hr
  obtain ⟨hdir, hstep⟩ := buildEnvironment_some sys dir st r hr
  -- the descriptor step reads the variables of the initial environment
  have hget : ∀ k, k ≠ "HOME" → k ≠ "TMPDIR" → k ≠ "DEPS_DIR" →
      getenv (setPathVariables sys dir st).2.env k = getenv st.env k := fun k h1 h2 h3 =>
    getenv_eq_of_lookup _ _ k (setPathVariables_lookup sys dir st k h1 h2 h3)
  have haug : ∀ m, augmentDescriptor sys (setPathVariables sys dir st).2.env m =
      augmentDescriptor sys st.env m := fun m =>
    augmentDescriptor_congr sys _ _ m (hget _ (by decide) (by decide) (by decide))
      (hget _ (by decide) (by decide) (by decide)) (hget _ (by decide) (by decide) (by decide))
  have hagain := augmentVcapApplication_again sys (setPathVariables sys dir st).2 r.2 hcongr
    (by
      intro m text h1 h2
      rw [hget _ (by decide) (by decide) (by decide)] at h1
      rw [haug] at h2 ⊢
      exact hrt m text h1 h2)
    (by
      intro m h1
      rw [hget _ (by decide) (by decide) (by decide)] at h1
      exact hdecoded m h1)
    hstep
  obtain ⟨st2, hst2, henv2⟩ := hagain
  -- second run: the path variables are already in place
  have hpath : (setPathVariables sys dir r.2).2.env = r.2.env := by
    apply setPathVariables_env_noop sys dir st
    · exact augmentVcapApplication_lookup sys _ _ _ hstep (by decide)
    · exact augmentVcapApplication_lookup sys _ _ _ hstep (by decide)
    · exact augmentVcapApplication_lookup sys _ _ _ hstep (by decide)
  obtain ⟨st3, hst3, henv3⟩ := augmentVcapApplication_env_congr sys r.2
    (setPathVariables sys dir r.2).2 st2 hpath hst2
  refine ⟨_, buildEnvironment_of_some sys dir r.2 st3 hst3, ?_, ?_⟩
  · simp only
    rw [henv3, henv2]
  · simp only
    rw [hdir]
    rfl

/-- C7, at `PORT=9007199254740993`: the library properties hold although the
decoded port is not the encoded one, the first construction completes and sets
`VCAP_APPLICATION`, and a second construction leaves the environment as it is. -/
theorem C7_construction_idempotent_witness :
    assocGet "port" (decodedView sampleBigAugmented) = some (JsonValue.number 9007199254740992) ∧
    ∃ r, buildEnvironment sampleBigPortSys "/app" { env := sampleBigPortSys.env, log := [] } =
        some r ∧
      lookupEnv r.2.env "VCAP_APPLICATION" = some sampleBigAugmentedText ∧
      ∃ r2, buildEnvironment sampleBigPortSys "/app" r.2 = some r2 ∧ r2.2.env = r.2.env ∧
        r2.1 = r.1 :=
  have hdec : sampleBigPortSys.jsonUnmarshalObject
      (getenv sampleBigPortSys.env "VCAP_APPLICATION") = Except.ok (some sampleDescriptor) := rfl
  have hrt : ∀ m text,
      sampleBigPortSys.jsonUnmarshalObject (getenv sampleBigPortSys.env "VCAP_APPLICATION") =
        Except.ok (some m) →
      sampleBigPortSys.jsonMarshal (augmentDescriptor sampleBigPortSys sampleBigPortSys.env m) =
        Except.ok text →
      ∃ m2, sampleBigPortSys.jsonUnmarshalObject text = Except.ok (some m2) ∧
        sameFields m2 (decodedView (augmentDescriptor sampleBigPortSys sampleBigPortSys.env m)) := by
    intro m text h1 h2
    rw [hdec] at h1
    have hm : m = sampleDescriptor := (Option.some.inj (Except.ok.inj h1)).symm
    subst hm
    have h3 : sampleBigPortSys.jsonMarshal
        (augmentDescriptor sampleBigPortSys sampleBigPortSys.env sampleDescriptor) =
        Except.ok sampleBigAugmentedText := rfl
    rw [h3] at h2
    have ht : text = sampleBigAugmentedText := (Except.ok.inj h2).symm
    subst ht
    exact ⟨decodedView sampleBigAugmented, rfl, fun _ => rfl⟩
  have hdecoded : ∀ m,
      sampleBigPortSys.jsonUnmarshalObject (getenv sampleBigPortSys.env "VCAP_APPLICATION") =
        Except.ok (some m) → sameFields (decodedView m) m := by
    intro m h1
    rw [hdec] at h1
    have hm : m = sampleDescriptor := (Option.some.inj (Except.ok.inj h1)).symm
    subst hm
    exact fun _ => rfl
  ⟨by decide, _, rfl, rfl,
    (C7_construction_idempotent sampleBigPortSys "/app"
      { env := sampleBigPortSys.env, log := [] } sampleMarshal_congr hrt hdecoded).1 _ rfl⟩

/-- C8: for every invocation that reaches platform-option handling (it has at
least three positional arguments, resolves a non-empty command, and
`platformOptions` is called), when the platform options decode to a non-empty
`credhub_uri` and `CF_INSTANCE_CERT` or `CF_INSTANCE_KEY` is unset or empty,
`main` exits with status 6 at the missing-client-credentials site; neither
`credhub.New` nor `InterpolateString` has been called, and `VCAP_SERVICES` is
bound as it was initially. -/
theorem C8_missing_credentials (sys : Sys) (c : String) (po : PlatformOptions)
    (hlen : 4 ≤ sys.osArgs.length)
    (hcmd : resolvedCommand sys = Except.ok c) (hne : c ≠ "")
    (hreach : Event.platformOptions ∈ (main sys).2.log)
    (hpo : platformOptions sys = Except.ok (some po)) (huri : po.CredhubURI ≠ "")
    (hcred : getenv sys.env "CF_INSTANCE_CERT" = "" ∨ getenv sys.env "CF_INSTANCE_KEY" = "") :
    (main sys).1 = Outcome.exit Fatal.missingClientCredentials 6 ∧
    (∀ e ∈ (main sys).2.log, e.callsCredhub = false) ∧
    lookupEnv (main sys).2.env "VCAP_SERVICES" = lookupEnv sys.env "VCAP_SERVICES" := by
  rcases hst : augmentVcapApplication sys (pathState sys) with _ | st1
  · rw [main_of_panic sys hlen hst] at hreach
    obtain ⟨k, v, h2, _⟩ := pathState_log sys _ hreach
    simp at h2
  · have hcred2 : getenv ((resolveCommand sys (sys.osArgs.getD 2 "") st1).2.emit
        Event.platformOptions).env "CF_INSTANCE_CERT" = "" ∨
        getenv ((resolveCommand sys (sys.osArgs.getD 2 "") st1).2.emit
          Event.platformOptions).env "CF_INSTANCE_KEY" = "" := by
      rw [State.emit_env, resolved_getenv sys st1 _ hst (by decide),
        resolved_getenv sys st1 _ hst (by decide)]
      exact hcred
    have hmain : main sys = (Outcome.exit Fatal.missingClientCredentials 6,
        ((resolveCommand sys (sys.osArgs.getD 2 "") st1).2.emit Event.platformOptions).emit
          (Event.stderr "Missing CF_INSTANCE_CERT and/or CF_INSTANCE_KEY")) := by
      rw [main_of_resolved sys st1 c hlen hst hcmd, launch_of_options sys _ c _ (some po) hne hpo,
        interpolateServices_of_missing sys po _ huri hcred2]
    rw [hmain]
    refine ⟨rfl, ?_, ?_⟩
    · intro e he
      simp only [State.emit_log, List.mem_append, List.mem_singleton] at he
      rcases he with (he | he) | he
      · exact (resolved_log sys st1 e hst he).1
      · subst he
        rfl
      · subst he
        rfl
    · simp only [State.emit_env]
      exact resolved_lookup sys st1 _ hst (by decide)

/-- C8, at a launch whose platform options name a credhub URI while the
environment has neither `CF_INSTANCE_CERT` nor `CF_INSTANCE_KEY`. -/
theorem C8_missing_credentials_witness :
    (4 ≤ sampleCredhubSys.osArgs.length ∧
      resolvedCommand sampleCredhubSys = Except.ok "bundle exec rails server" ∧
      Event.platformOptions ∈ (main sampleCredhubSys).2.log ∧
      platformOptions sampleCredhubSys =
        Except.ok (some { CredhubURI := "https://credhub.example" }) ∧
      getenv sampleCredhubSys.env "CF_INSTANCE_CERT" = "") ∧
    ((main sampleCredhubSys).1 = Outcome.exit Fatal.missingClientCredentials 6 ∧
      (∀ e ∈ (main sampleCredhubSys).2.log, e.callsCredhub = false) ∧
      lookupEnv (main sampleCredhubSys).2.env "VCAP_SERVICES" =
        lookupEnv sampleCredhubSys.env "VCAP_SERVICES") :=
  ⟨⟨by decide, rfl, by decide, rfl, by decide⟩,
    C8_missing_credentials sampleCredhubSys "bundle exec rails server"
      { CredhubURI := "https://credhub.example" } (by decide) rfl (by decide) (by decide) rfl
      (by decide) (Or.inl (by decide))⟩

/-- C9: when the platform options are absent (`len(os.Args) <= 4`, or the
argument is the empty string) or decode to an empty `credhub_uri`,
`platformOptions` returns no error and no credhub URI, the credhub client is
never called, and the binding of `VCAP_SERVICES` at the end of `main` (in
particular in the environment handed to `runProcess`) is its initial binding:
the same value, or unset if it was unset. -/
theorem C9_services_untouched (sys : Sys)
    (h : sys.osArgs.length ≤ 4 ∨ sys.osArgs.getD 4 "" = "" ∨
      ∃ json po, sys.base64Decode (sys.osArgs.getD 4 "") = Except.ok json ∧
        sys.jsonUnmarshalPlatformOptions json = Except.ok po ∧ po.CredhubURI = "") :
    (∃ opts, platformOptions sys = Except.ok opts ∧
      ∀ po, opts = some po → po.CredhubURI = "") ∧
    (∀ e ∈ (main sys).2.log, e.callsCredhub = false) ∧
    lookupEnv (main sys).2.env "VCAP_SERVICES" = lookupEnv sys.env "VCAP_SERVICES" := by
  have hopts : ∃ opts, platformOptions sys = Except.ok opts ∧
      ∀ po, opts = some po → po.CredhubURI = "" := by
    by_cases h1 : sys.osArgs.length ≤ 4 ∨ sys.osArgs.getD 4 "" = ""
    · exact ⟨none, (platformOptions_ok_iff sys none).2 (Or.inl ⟨h1, rfl⟩), by simp⟩
    · rcases h with h | h | ⟨json, po, hb, hj, hu⟩
      · exact absurd (Or.inl h) h1
      · exact absurd (Or.inr h) h1
      · simp only [not_or, not_le] at h1
        refine ⟨some po, (platformOptions_ok_iff sys _).2
          (Or.inr ⟨h1.1, h1.2, json, po, hb, hj, rfl⟩), ?_⟩
        intro po2 hpo2
        cases hpo2
        exact hu
  refine ⟨hopts, ?_⟩
  obtain ⟨opts, hpo, hnone⟩ := hopts
  by_cases hlen : sys.osArgs.length < 4
  · rw [main_of_few sys hlen]
    refine ⟨?_, rfl⟩
    intro e he
    simp only [List.mem_cons, List.mem_singleton, List.not_mem_nil, or_false] at he
    rcases he with rfl | rfl <;> rfl
  · have hlen2 : 4 ≤ sys.osArgs.length := by omega
    rcases hst : augmentVcapApplication sys (pathState sys) with _ | st1
    · rw [main_of_panic sys hlen2 hst]
      refine ⟨?_, pathState_lookup sys _ (by decide)⟩
      intro e he
      obtain ⟨k, v, h2, _⟩ := pathState_log sys e he
      subst h2
      rfl
    · rcases hcmd : resolvedCommand sys with err | c
      · rw [main_of_unresolved sys st1 err hlen2 hst hcmd]
        refine ⟨?_, ?_⟩
        · intro e he
          simp only [State.emit_log, List.mem_append, List.mem_singleton] at he
          rcases he with he | he
          · exact (resolved_log sys st1 e hst he).1
          · subst he
            rfl
        · simp only [State.emit_env]
          exact resolved_lookup sys st1 _ hst (by decide)
      · rw [main_of_resolved sys st1 c hlen2 hst hcmd]
        by_cases hc : c = ""
        · subst hc
          rw [launch_of_empty]
          refine ⟨?_, ?_⟩
          · intro e he
            simp only [State.emit_log, List.mem_append, List.mem_singleton] at he
            rcases he with he | he
            · exact (resolved_log sys st1 e hst he).1
            · subst he
              rfl
          · simp only [State.emit_env]
            exact resolved_lookup sys st1 _ hst (by decide)
        · rw [launch_of_options sys _ c _ opts hc hpo, interpolateServices_noop sys opts _ hnone]
          refine ⟨?_, ?_⟩
          · intro e he
            simp only [State.emit_log, List.mem_append, List.mem_singleton] at he
            rcases he with (he | he) | he
            · exact (resolved_log sys st1 e hst he).1
            · subst he
              rfl
            · subst he
              rfl
          · simp only [State.emit_env]
            exact resolved_lookup sys st1 _ hst (by decide)

/-- C9, at a launch without platform options: `runProcess` is reached and
`VCAP_SERVICES` is still `services`. -/
theorem C9_services_untouched_witness :
    (main sampleSys).1 = Outcome.runProcess "/app" "bundle exec rails server" ∧
    lookupEnv sampleSys.env "VCAP_SERVICES" = some "services" ∧
    ((∃ opts, platformOptions sampleSys = Except.ok opts ∧
      ∀ po, opts = some po → po.CredhubURI = "") ∧
    (∀ e ∈ (main sampleSys).2.log, e.callsCredhub = false) ∧
    lookupEnv (main sampleSys).2.env "VCAP_SERVICES" = lookupEnv sampleSys.env "VCAP_SERVICES") :=
  ⟨by decide, by decide, C9_services_untouched sampleSys (Or.inl (by decide))⟩

/-- The launch condition of the code: `main` reaches `runProcess` exactly when
the launch conditions of the specification hold and the decoder does not leave
a nil map for `VCAP_APPLICATION`. -/
theorem main_launched_iff (sys : Sys) :
    (main sys).1.launched = true ↔
      LaunchConditions sys ∧
      sys.jsonUnmarshalObject (getenv sys.env "VCAP_APPLICATION") ≠ Except.ok none := by
  unfold LaunchConditions
  by_cases hlen : sys.osArgs.length < 4
  · rw [main_of_few sys hlen]
    simp only [Outcome.launched, Bool.false_eq_true, false_iff, not_and]
    intro h4
    omega
  · have hlen2 : 4 ≤ sys.osArgs.length := by omega
    rcases hst : augmentVcapApplication sys (pathState sys) with _ | st1
    · rw [main_of_panic sys hlen2 hst]
      have hnil := (main_panic_iff sys).1 hst
      simp [Outcome.launched, hnil]
    · have hnil : sys.jsonUnmarshalObject (getenv sys.env "VCAP_APPLICATION") ≠
          Except.ok none := by
        intro hn
        rw [(main_panic_iff sys).2 hn] at hst
        cases hst
      rw [← resolvedCommand_ok_iff]
      rcases hcmd : resolvedCommand sys with err | c
      · rw [main_of_unresolved sys st1 err hlen2 hst hcmd]
        simp [Outcome.launched]
      · rw [main_of_resolved sys st1 c hlen2 hst hcmd, launch_launched_iff]
        simp only [Except.ok.injEq, exists_eq_left', hlen2, true_and, ne_eq, hnil,
          not_false_eq_true, and_true]
        apply and_congr_right
        intro hc
        constructor
        · rintro ⟨opts, hpo, hint⟩
          rw [interpolateServices_none_iff] at hint
          simp only [State.emit_env, resolved_getenv sys st1 "CF_INSTANCE_CERT" hst (by decide),
            resolved_getenv sys st1 "CF_INSTANCE_KEY" hst (by decide),
            resolved_getenv sys st1 "VCAP_SERVICES" hst (by decide)] at hint
          rcases (platformOptions_ok_iff sys opts).1 hpo with
            ⟨h1 | h1, _⟩ | ⟨_, _, json, po, hb, hj, ho⟩
          · exact Or.inl h1
          · exact Or.inr (Or.inl h1)
          · exact Or.inr (Or.inr ⟨json, po, hb, hj, hint po ho⟩)
        · intro h
          by_cases h1 : sys.osArgs.length ≤ 4 ∨ sys.osArgs.getD 4 "" = ""
          · refine ⟨none, (platformOptions_ok_iff sys none).2 (Or.inl ⟨h1, rfl⟩), ?_⟩
            rw [interpolateServices_none_iff]
            intro po hpo
            cases hpo
          · rcases h with h | h | ⟨json, po, hb, hj, hu⟩
            · exact absurd (Or.inl h) h1
            · exact absurd (Or.inr h) h1
            · simp only [not_or, not_le] at h1
              refine ⟨some po, (platformOptions_ok_iff sys _).2
                (Or.inr ⟨h1.1, h1.2, json, po, hb, hj, rfl⟩), ?_⟩
              rw [interpolateServices_none_iff]
              intro po2 hpo2 hu2
              cases hpo2
              simp only [State.emit_env,
                resolved_getenv sys st1 "CF_INSTANCE_CERT" hst (by decide),
                resolved_getenv sys st1 "CF_INSTANCE_KEY" hst (by decide),
                resolved_getenv sys st1 "VCAP_SERVICES" hst (by decide)]
              exact hu hu2

/-- C10 (failing input): the launch `launcher /app "bundle exec rails server"
metadata` with `VCAP_APPLICATION=null` meets every launch condition of the
specification (enough arguments, a non-empty command, no platform options), yet
`main` does not reach `runProcess`: the decoder leaves a nil map, line 52 assigns
into it, and the run ends in a panic with status 2.  The same launch with
`VCAP_APPLICATION={"foo":"bar"}` reaches `runProcess`. -/
theorem C10_nil_descriptor_prevents_launch :
    LaunchConditions sampleNullSys ∧
    sampleNullSys.jsonUnmarshalObject (getenv sampleNullSys.env "VCAP_APPLICATION") =
      Except.ok none ∧
    (main sampleNullSys).1 = Outcome.panic "assignment to entry in nil map" ∧
    (main sampleNullSys).1.status = some 2 ∧
    (main sampleNullSys).1.launched = false ∧
    (main sampleSys).1.launched = true :=
  ⟨⟨by decide, Or.inl (by decide), Or.inl (by decide)⟩, rfl, by decide, by decide, by decide,
    by decide⟩

end Launcher
